import Mathlib

/-!
Shallow embedding of the clear-signing ERC-7730 builder core:
the schema-to-graph transformation (`createKnowledgeGraphFromERC7730` in
`src/app/review-submit/page.tsx`), the Walrus content-store stage
(`publishToWalrus` in `src/lib/publish-walrus.ts`), the chain-anchor stage
(`publishToBlockchain`), and the knowledge-graph route validation
(`POST` in the API route).

JavaScript truthiness conventions used throughout the embedding:
absent (`undefined`/`null`) and `""` strings are falsy, the number `0` is
falsy, and any object or array (including `[]` and `{}`) is truthy.
-/

namespace ClearSigningBuilder

/-- JS string truthiness of a possibly-absent string: absent and `""` are falsy. -/
def optStrTruthy : Option String → Bool
  | some s => !(s == "")
  | none => false

/-- JS `a || b` for a possibly-absent string with a string default. -/
def strOr : Option String → String → String
  | some s, b => if s == "" then b else s
  | none, b => b

/-- JS `a || b` where both operands are possibly-absent strings. -/
def strOrOpt : Option String → Option String → Option String
  | some s, b => if s == "" then b else some s
  | none, b => b

/-- JS `a || b` for a possibly-absent number with a number default (0 is falsy). -/
def numOr : Option Nat → Nat → Nat
  | some n, b => if n == 0 then b else n
  | none, b => b

/-- JS `a || b` for possibly-absent numbers with a possibly-absent fallback (0 is falsy). -/
def numOrOpt : Option Nat → Option Nat → Option Nat
  | some n, b => if n == 0 then b else some n
  | none, b => b

/-- Whether the first character list is a prefix of the second. -/
def isPrefixCharList : List Char → List Char → Bool
  | [], _ => true
  | _ :: _, [] => false
  | c :: cs, d :: ds => c == d && isPrefixCharList cs ds

/-- Whether `sub` occurs as a contiguous run inside `s`. -/
def containsSubAux (sub : List Char) : List Char → Bool
  | [] => isPrefixCharList sub []
  | c :: cs => isPrefixCharList sub (c :: cs) || containsSubAux sub cs

/-- JS `s.includes(sub)`. -/
def jsIncludes (s sub : String) : Bool :=
  containsSubAux sub.data s.data

/-- JS `s.startsWith(pre)`. -/
def jsStartsWith (s pre : String) : Bool :=
  isPrefixCharList pre.data s.data

/-- JS `s.split(sep)` for the single-character separators the source uses. -/
def jsSplitAux (sep : Char) (acc : List Char) : List Char → List String
  | [] => [String.mk acc.reverse]
  | c :: cs =>
    if c == sep then String.mk acc.reverse :: jsSplitAux sep [] cs
    else jsSplitAux sep (c :: acc) cs

/-- JS `s.split(sep)` (single-character separator). -/
def jsSplit (s : String) (sep : Char) : List String :=
  jsSplitAux sep [] s.data

/-! ## Walrus content-store stage (`src/lib/publish-walrus.ts`) -/

/-- `newlyCreated.blobObject` of a Walrus success body; every JSON field may be absent. -/
structure BlobObject where
  blobId : Option String := none
  registeredEpoch : Option Nat := none
  size : Option Nat := none

/-- `newlyCreated` of a Walrus success body. -/
structure NewlyCreated where
  blobObject : Option BlobObject := none
  cost : Option Nat := none

/-- `alreadyCertified.event` of a Walrus success body. -/
structure CertEvent where
  txDigest : Option String := none

/-- `alreadyCertified` of a Walrus success body. -/
structure AlreadyCertified where
  blobId : Option String := none
  endEpoch : Option Nat := none
  event : Option CertEvent := none

/-- A parsed 2xx response body from the content store. -/
structure WalrusResponse where
  newlyCreated : Option NewlyCreated := none
  alreadyCertified : Option AlreadyCertified := none

/-- The `WalrusPublishResult` interface of `publish-walrus.ts`; `blobId` is kept
optional because the source copies it out of the response without checking presence. -/
structure WalrusPublishResult where
  blobId : Option String := none
  registeredEpoch : Option Nat := none
  size : Option Nat := none
  cost : Option Nat := none
  alreadyCertified : Bool := false
  endEpoch : Option Nat := none
  txDigest : Option String := none

/-- Outcome of the `fetch` call in `publishToWalrus`, supplied by the environment:
a transport failure (with whether it is a `TypeError`), a non-2xx HTTP response
(with the optional parsed `{error}` field, `none` when the body is unparseable),
or a parsed 2xx body. -/
inductive FetchOutcome where
  | transportError (isTypeError : Bool) (message : String)
  | httpError (status : Nat) (statusText : String) (errorField : Option String)
  | success (body : WalrusResponse)

/-- The `else if (result.alreadyCertified)` arm of lines 64-74 of
`publish-walrus.ts`. Accessing `result.alreadyCertified.event.txDigest` with
`event` absent raises a TypeError in JS, modelled as an error value. -/
def handleWalrusBodyCertified (body : WalrusResponse) : Except String WalrusPublishResult :=
  match body.alreadyCertified with
  | some ac =>
    match ac.event with
    | some ev =>
      .ok { blobId := ac.blobId, endEpoch := ac.endEpoch,
            txDigest := ev.txDigest, alreadyCertified := true }
    | none => .error "Cannot read properties of undefined (reading txDigest)"
  | none => .error "Invalid response format from Walrus: unexpected response structure"

/-- Lines 50-74 of `publish-walrus.ts`: dispatch on the parsed success body.
`result.newlyCreated?.blobObject` is truthy exactly when both objects are present
(an empty object is still truthy); `result.alreadyCertified` likewise. -/
def handleWalrusBody (body : WalrusResponse) : Except String WalrusPublishResult :=
  match body.newlyCreated with
  | some nc =>
    match nc.blobObject with
    | some bo =>
      .ok { blobId := bo.blobId, registeredEpoch := bo.registeredEpoch,
            size := bo.size, cost := nc.cost, alreadyCertified := false }
    | none => handleWalrusBodyCertified body
  | none => handleWalrusBodyCertified body

/-- `publishToWalrus` (`publish-walrus.ts` lines 17-82) as a function of the fetch
outcome. On a non-2xx status the message is the parsed `{error}` field when truthy,
else `HTTP status: statusText`. Every error thrown inside the `try` that is not a
`TypeError` whose message contains `fetch` is re-wrapped by the outer catch as
`Failed to publish to Walrus: ...`; a fetch `TypeError` becomes the network error. -/
def publishToWalrus (publisherUrl : String) (outcome : FetchOutcome) :
    Except String WalrusPublishResult :=
  match outcome with
  | .transportError isTypeError msg =>
    if isTypeError && jsIncludes msg "fetch" then
      .error ("Network error: Unable to connect to Walrus publisher. Please check the URL: "
        ++ publisherUrl)
    else
      .error ("Failed to publish to Walrus: " ++ msg)
  | .httpError status statusText errorField =>
    let defaultMsg := "HTTP " ++ toString status ++ ": " ++ statusText
    .error ("Failed to publish to Walrus: " ++ strOr errorField defaultMsg)
  | .success body =>
    match handleWalrusBody body with
    | .ok v => .ok v
    | .error e => .error ("Failed to publish to Walrus: " ++ e)

/-- Refinement-side definition, written from the spec: a body matches the
*newly created* shape when `newlyCreated.blobObject{blobId,registeredEpoch,size}`
and `newlyCreated.cost` are all present. -/
def specNewlyCreatedShape (r : WalrusResponse) : Bool :=
  match r.newlyCreated with
  | some nc =>
    match nc.blobObject with
    | some bo => bo.blobId.isSome && bo.registeredEpoch.isSome && bo.size.isSome
        && nc.cost.isSome
    | none => false
  | none => false

/-- Refinement-side definition, written from the spec: a body matches the
*already certified* shape when `alreadyCertified{blobId,endEpoch,event.txDigest}`
is fully present. -/
def specAlreadyCertifiedShape (r : WalrusResponse) : Bool :=
  match r.alreadyCertified with
  | some ac =>
    match ac.event with
    | some ev => ac.blobId.isSome && ac.endEpoch.isSome && ev.txDigest.isSome
    | none => false
  | none => false

/-! ## Schema document model (`review-submit/page.tsx`)

The input document is loosely shaped JSON; every attribute the builder reads is
modelled as an optional field. -/

/-- `metadata.info` of the document. -/
structure Info where
  legalName : Option String := none
  url : Option String := none

/-- `metadata` of the document. -/
structure Metadata where
  owner : Option String := none
  name : Option String := none
  info : Option Info := none
  version : Option String := none
  description : Option String := none

/-- One element of an ABI `inputs`/`outputs` list. -/
structure AbiInput where
  type : String
  name : Option String := none

/-- One ABI entry, with every attribute the builder reads. -/
structure AbiFunction where
  type : String
  name : String
  inputs : Option (List AbiInput) := none
  outputs : Option (List AbiInput) := none
  stateMutability : Option String := none
  payable : Option Bool := none
  constant : Option Bool := none
  signature : Option String := none
  selector : Option String := none
  gas : Option Nat := none
  gasEstimate : Option Nat := none
  estimatedGas : Option Nat := none

/-- A `{chainId, address}` deployment record, with the alternate attribute names
the builder reads. -/
structure Deployment where
  chainId : Option Nat := none
  address : Option String := none
  network : Option String := none
  chainName : Option String := none
  blockNumber : Option Nat := none
  txHash : Option String := none
  transactionHash : Option String := none

/-- `context.contract` of the document. -/
structure ContractContext where
  name : Option String := none
  abi : Option (List AbiFunction) := none
  deployments : Option (List Deployment) := none

/-- `context` of the document. -/
structure Context where
  contract : Option ContractContext := none

/-- A display field's `params` bag (also reachable under `parameters` or `validation`). -/
structure FieldParams where
  types : Option String := none
  encoding : Option String := none
  sources : Option String := none
  constraints : Option String := none

/-- One display-format field, with every alternate attribute name the builder reads. -/
structure DisplayField where
  format : Option String := none
  type : Option String := none
  dataType : Option String := none
  fieldType : Option String := none
  label : Option String := none
  name : Option String := none
  title : Option String := none
  path : Option String := none
  jsonPath : Option String := none
  params : Option FieldParams := none
  parameters : Option FieldParams := none
  validation : Option FieldParams := none
  input : Option Bool := none
  direction : Option String := none
  output : Option Bool := none
  required : Option Bool := none
  optional : Option Bool := none
  description : Option String := none
  intent : Option String := none
  help : Option String := none
  tooltip : Option String := none
  summary : Option String := none
  isArray : Option Bool := none
  constraints : Option String := none

/-- One display-format record. -/
structure DisplayFormat where
  intent : Option String := none
  description : Option String := none
  purpose : Option String := none
  summary : Option String := none
  fields : Option (List DisplayField) := none

/-- `display` of the document. The formats map is modelled as an association
list in object-key order (JS `Object.entries` order). -/
structure Display where
  formats : Option (List (String × DisplayFormat)) := none

/-- The whole ERC-7730-like document as read by the builder. -/
structure ERC7730Doc where
  metadata : Option Metadata := none
  context : Option Context := none
  display : Option Display := none
  name : Option String := none
  operations : Option (List (String × DisplayFormat)) := none
  deployments : Option (List Deployment) := none

/-! ## Graph model -/

/-- Kind-specific attribute bags of the contract node (`page.tsx` lines 130-150).
The source object literal writes the key `description` twice
(the constant string first, then `data.metadata?.description`); the later
entry wins in a JS object literal, so only that one is kept. -/
structure ContractDetails where
  metadata : Option Metadata
  context : Option Context
  owner : Option String
  name : Option String
  legalName : Option String
  url : Option String
  version : Option String
  description : Option String

/-- Attribute bag of an operation node (`page.tsx` lines 252-270). -/
structure OperationDetails where
  description : String
  format : Option DisplayFormat
  abi : Option AbiFunction
  fields : Nat
  operationType : String
  isPayable : Bool
  isView : Bool
  isPure : Bool
  isConstant : Bool
  hasStateChange : Bool
  isReadOnly : Bool
  stateMutability : Option String
  gasEstimate : Option Nat
  selector : String
  signature : String
  inputs : List AbiInput
  outputs : List AbiInput

/-- Attribute bag of a field node (`page.tsx` lines 333-352). -/
structure FieldDetails where
  description : String
  fieldType : String
  inputOutput : String
  path : String
  params : FieldParams
  required : Bool
  validation : Bool
  fieldDescription : String
  isArray : Bool
  isAddress : Bool
  isAmount : Bool
  isDate : Bool
  isRaw : Bool
  isDuration : Bool
  types : Option String
  encoding : Option String
  sources : Option String
  constraints : Option String

/-- Attribute bag of a deployment node (`page.tsx` lines 381-389). -/
structure DeploymentDetails where
  description : String
  chainId : Option Nat
  address : Option String
  fullAddress : Option String
  network : Option String
  blockNumber : Option Nat
  transactionHash : Option String

/-- The `details: any` bag of a graph node, one alternative per node kind. -/
inductive NodeDetails where
  | contract (d : ContractDetails)
  | operation (d : OperationDetails)
  | field (d : FieldDetails)
  | deployment (d : DeploymentDetails)

/-- The `KnowledgeGraphNode` interface of `page.tsx`. -/
structure KnowledgeGraphNode where
  id : String
  label : String
  type : String
  group : Nat
  details : NodeDetails
  connections : Nat
  x : Option Float := none
  y : Option Float := none
  fx : Option Float := none
  fy : Option Float := none

/-- The `KnowledgeGraphLink` interface of `page.tsx`. -/
structure KnowledgeGraphLink where
  source : String
  target : String
  label : String
  strength : Nat
  type : String

/-- The `KnowledgeGraphData` interface of `page.tsx`. -/
structure KnowledgeGraphData where
  nodes : List KnowledgeGraphNode
  links : List KnowledgeGraphLink

/-- The value of JS `Math.PI`. -/
def mathPI : Float := 3.141592653589793

/-! ## Operation table (`page.tsx` lines 154-211)

The JS `Map` is modelled as an association list in insertion order:
`set` on an existing key replaces the stored row in place, otherwise appends. -/

/-- One row of the operations table (`page.tsx` lines 165-171). -/
structure OperationRow where
  name : String
  abi : Option AbiFunction
  display : Option DisplayFormat
  inputs : List AbiInput
  outputs : List AbiInput

/-- The operations table in insertion order. -/
abbrev OpsMap := List (String × OperationRow)

/-- JS `Map.has`. -/
def mapHas (m : OpsMap) (k : String) : Bool :=
  m.any (fun p => p.1 == k)

/-- JS `Map.get`. -/
def mapLookup (m : OpsMap) (k : String) : Option OperationRow :=
  (m.find? (fun p => p.1 == k)).map (fun p => p.2)

/-- JS `Map.set`: replace in place when the key exists, else append. -/
def mapSet (m : OpsMap) (k : String) (v : OperationRow) : OpsMap :=
  if mapHas m k then m.map (fun p => if p.1 == k then (k, v) else p)
  else m ++ [(k, v)]

/-- In-place mutation of the row stored under `k` (JS `map.get(k).field = v`). -/
def mapUpdate (m : OpsMap) (k : String) (f : OperationRow → OperationRow) : OpsMap :=
  m.map (fun p => if p.1 == k then (p.1, f p.2) else p)

/-- The normalized signature string of an ABI entry (`page.tsx` line 163):
`name(type1,type2,...)`; `inputs` defaults to the empty list. -/
def signatureOf (a : AbiFunction) : String :=
  a.name ++ "(" ++ String.intercalate "," ((a.inputs.getD []).map AbiInput.type) ++ ")"

/-- One step of the ABI pass (`page.tsx` lines 158-172). -/
def abiStep (m : OpsMap) (a : AbiFunction) : OpsMap :=
  if a.type == "function" then
    mapSet m (signatureOf a)
      { name := a.name, abi := some a, display := none,
        inputs := a.inputs.getD [], outputs := a.outputs.getD [] }
  else m

/-- The ABI pass: walk ABI entries of kind `function`, seeding rows keyed by signature. -/
def abiPass (l : List AbiFunction) : OpsMap :=
  l.foldl abiStep []

/-- One step of the display-format pass (`page.tsx` lines 178-195): merge into
an existing row when the key matches, else create a new row keyed by the display
key, taking the part before `(` as the name when the key has a parameter list. -/
def displayStep (m : OpsMap) (kf : String × DisplayFormat) : OpsMap :=
  if mapHas m kf.1 then
    mapUpdate m kf.1 (fun row => { row with display := some kf.2 })
  else
    mapSet m kf.1
      { name := if jsIncludes kf.1 "(" then (jsSplit kf.1 (Char.ofNat 40)).headD kf.1 else kf.1,
        abi := none, display := some kf.2, inputs := [], outputs := [] }

/-- The display-format pass over `display.formats`. -/
def displayPass (m : OpsMap) (formats : List (String × DisplayFormat)) : OpsMap :=
  formats.foldl displayStep m

/-- One step of the `data.operations` pass (`page.tsx` lines 200-210): only adds
a row when the key is not already present. -/
def operationsStep (m : OpsMap) (kf : String × DisplayFormat) : OpsMap :=
  if !(mapHas m kf.1) then
    mapSet m kf.1
      { name := kf.1, abi := none, display := some kf.2, inputs := [], outputs := [] }
  else m

/-- The `data.operations` pass. -/
def operationsPass (m : OpsMap) (ops : List (String × DisplayFormat)) : OpsMap :=
  ops.foldl operationsStep m

/-- The full operations table of a document (`page.tsx` lines 154-211); an absent
ABI list, formats map or operations record contributes nothing. -/
def buildOpsMap (data : ERC7730Doc) : OpsMap :=
  let m1 := abiPass (((data.context.bind Context.contract).bind ContractContext.abi).getD [])
  let m2 := displayPass m1 ((data.display.bind Display.formats).getD [])
  operationsPass m2 (data.operations.getD [])

/-! ## Node construction (`page.tsx` lines 214-446) -/

/-- The field list iterated for an operation (`display?.fields`; a present empty
list is truthy in JS and iterates zero times, same as the default here). -/
def jsFields (display : Option DisplayFormat) : List DisplayField :=
  (display.bind DisplayFormat.fields).getD []

/-- The computed `fieldPath` of a display field (`page.tsx` line 294). -/
def jsFieldPath (f : DisplayField) : String :=
  strOr f.path (strOr f.jsonPath "")

/-- The `isInput` classification of a display field (`page.tsx` lines 298-301);
shared between the field node's `inputOutput` attribute and the link label. -/
def jsFieldIsInput (f : DisplayField) : Bool :=
  jsIncludes (jsFieldPath f) "#." || jsIncludes (jsFieldPath f) "input"
    || !(f.input == some false) || !(f.direction == some "output")

/-- The `isOutput` classification of a display field (`page.tsx` lines 302-305);
computed by the source but never used for the emitted attributes. -/
def jsFieldIsOutput (f : DisplayField) : Bool :=
  jsIncludes (jsFieldPath f) "output" || jsIncludes (jsFieldPath f) "return"
    || (f.output == some true) || (f.direction == some "output")

/-- The attribute bag of a field node (`page.tsx` lines 291-352), computed from
the display field alone. -/
def mkFieldDetails (f : DisplayField) : FieldDetails :=
  let fieldType := strOr f.format (strOr f.type (strOr f.dataType (strOr f.fieldType "unknown")))
  let fieldPath := jsFieldPath f
  let fieldParams :=
    match f.params with
    | some p => p
    | none =>
      match f.parameters with
      | some p => p
      | none => f.validation.getD {}
  let isInput := jsFieldIsInput f
  let hasValidation := optStrTruthy fieldParams.types || optStrTruthy fieldParams.encoding
    || optStrTruthy fieldParams.sources || optStrTruthy fieldParams.constraints
    || f.validation.isSome || optStrTruthy f.constraints
  let fieldDescription := strOr f.description (strOr f.intent (strOr f.help
    (strOr f.tooltip (strOr f.summary ""))))
  let isArray := jsIncludes fieldType "array" || jsIncludes fieldType "[]"
    || (f.isArray == some true)
  let isAddress := (fieldType == "addressName") || (fieldType == "address")
    || jsIncludes fieldType "address"
  let isAmount := (fieldType == "amount") || (fieldType == "uint256")
    || (fieldType == "number") || jsIncludes fieldType "uint"
  let isDate := (fieldType == "date") || (fieldType == "timestamp")
    || jsIncludes fieldType "time"
  let isRaw := (fieldType == "raw") || (fieldType == "bytes") || (fieldType == "string")
  let isDuration := (fieldType == "duration") || (fieldType == "time")
    || jsIncludes fieldType "duration"
  { description := if isInput then "Input field parameter" else "Output field result",
    fieldType := fieldType,
    inputOutput := if isInput then "input" else "output",
    path := fieldPath,
    params := fieldParams,
    required := !(f.required == some false) && !(f.optional == some true),
    validation := hasValidation,
    fieldDescription := fieldDescription,
    isArray := isArray, isAddress := isAddress, isAmount := isAmount,
    isDate := isDate, isRaw := isRaw, isDuration := isDuration,
    types := fieldParams.types, encoding := fieldParams.encoding,
    sources := fieldParams.sources, constraints := fieldParams.constraints }

/-- A field node (`page.tsx` lines 290-356). `opFx`/`opFy` are the owning
operation node's fixed coordinates, `nFields` the length of the display field list. -/
def mkFieldNode (f : DisplayField) (opFx opFy : Float) (fieldIndex nFields nid : Nat) :
    KnowledgeGraphNode :=
  { id := "field-" ++ toString nid,
    label := strOr f.label (strOr f.name (strOr f.title
      (strOr (f.path.map (fun p => (jsSplit p (Char.ofNat 46)).getLastD "")) "Unknown Field"))),
    type := "field",
    group := 3,
    details := .field (mkFieldDetails f),
    -- connections is 1 in the final array: incremented once for the operation link
    connections := 1,
    fx := some (opFx + Float.cos ((Float.ofNat fieldIndex) * 2 * mathPI / (Float.ofNat nFields)) * 150),
    fy := some (opFy + Float.sin ((Float.ofNat fieldIndex) * 2 * mathPI / (Float.ofNat nFields)) * 150) }

/-- The attribute bag of an operation node (`page.tsx` lines 218-270), computed
from the signature key and the table row. -/
def mkOperationDetails (signature : String) (row : OperationRow) : OperationDetails :=
  let abi := row.abi
  let sm := abi.bind AbiFunction.stateMutability
  let isPayable := (sm == some "payable") || ((abi.bind AbiFunction.payable) == some true)
  let isView := (sm == some "view") || ((abi.bind AbiFunction.constant) == some true)
  let isPure := sm == some "pure"
  let isConstant := (abi.bind AbiFunction.constant) == some true
  let hasStateChange := (sm == some "nonpayable") || (sm == some "payable") || !isView
  let isReadOnly := (sm == some "view") || (sm == some "pure") || isConstant
  let functionSelector := strOr (abi.bind AbiFunction.signature)
    (strOr (abi.bind AbiFunction.selector) "")
  let gasEstimate := numOrOpt (abi.bind AbiFunction.gas)
    (numOrOpt (abi.bind AbiFunction.gasEstimate)
      (numOrOpt (abi.bind AbiFunction.estimatedGas) none))
  let functionType := strOr (abi.map AbiFunction.type) "function"
  let fieldCount := numOr ((row.display.bind DisplayFormat.fields).map List.length)
    (numOr (some row.inputs.length)
      (numOr ((abi.bind AbiFunction.inputs).map List.length) 0))
  let operationDescription := strOr (row.display.bind DisplayFormat.intent)
    (strOr (row.display.bind DisplayFormat.description)
      (strOr (row.display.bind DisplayFormat.purpose)
        (strOr (row.display.bind DisplayFormat.summary) "Contract operation")))
  { description := operationDescription,
    format := row.display,
    abi := abi,
    fields := fieldCount,
    operationType := functionType,
    isPayable := isPayable, isView := isView, isPure := isPure,
    isConstant := isConstant, hasStateChange := hasStateChange,
    isReadOnly := isReadOnly,
    stateMutability := sm,
    gasEstimate := gasEstimate,
    selector := functionSelector,
    signature := signature,
    -- JS `operation.inputs || abi?.inputs || []`: arrays are always truthy,
    -- so the row's own (possibly empty) lists are used
    inputs := row.inputs,
    outputs := row.outputs }

/-- An operation node (`page.tsx` lines 214-275). `nFields` is the number of
field nodes that will be created for it (its final connection count is one for
the contract link plus one per field link); `ofx`/`ofy` are its ring coordinates. -/
def mkOperationNode (signature : String) (row : OperationRow) (nFields nid : Nat)
    (ofx ofy : Float) : KnowledgeGraphNode :=
  { id := "operation-" ++ toString nid,
    label := row.name,
    type := "operation",
    group := 2,
    details := .operation (mkOperationDetails signature row),
    connections := 1 + nFields,
    fx := some ofx,
    fy := some ofy }

/-- The field nodes and operation-to-field links of one operation
(`page.tsx` lines 289-370), walking the display field list with its index. -/
def fieldSection (opId : String) (opFx opFy : Float) (nFields : Nat) :
    List DisplayField → Nat → Nat → List KnowledgeGraphNode × List KnowledgeGraphLink
  | [], _, _ => ([], [])
  | f :: rest, fieldIndex, nid =>
    let node := mkFieldNode f opFx opFy fieldIndex nFields nid
    let lnk : KnowledgeGraphLink :=
      { source := opId, target := node.id,
        label := if jsFieldIsInput f then "requires input" else "produces output",
        strength := 1, type := "field" }
    let rest' := fieldSection opId opFx opFy nFields rest (fieldIndex + 1) (nid + 1)
    (node :: rest'.1, lnk :: rest'.2)

/-- The operation and field nodes and their links (`page.tsx` lines 214-371),
walking the operation table in insertion order with its index; `total` is the
table size (used for the layout ring) and `nid` the next free node id. -/
def opSection (contractId : String) (total : Nat) :
    OpsMap → Nat → Nat → List KnowledgeGraphNode × List KnowledgeGraphLink
  | [], _, _ => ([], [])
  | (signature, row) :: rest, index, nid =>
    let fields := jsFields row.display
    let ofx := Float.cos ((Float.ofNat index) * 2 * mathPI / (Float.ofNat total)) * 200
    let ofy := Float.sin ((Float.ofNat index) * 2 * mathPI / (Float.ofNat total)) * 200
    let node := mkOperationNode signature row fields.length nid ofx ofy
    let opLink : KnowledgeGraphLink :=
      { source := contractId, target := node.id, label := "has operation",
        strength := 1, type := "operation" }
    let fieldPart := fieldSection node.id ofx ofy fields.length fields 0 (nid + 1)
    let rest' := opSection contractId total rest (index + 1) (nid + 1 + fields.length)
    (node :: (fieldPart.1 ++ rest'.1), opLink :: (fieldPart.2 ++ rest'.2))

/-- A deployment node (`page.tsx` lines 376-393 and 413-430); `radius` is 300 in
both emission sites. -/
def mkDeploymentNode (dep : Deployment) (index total nid : Nat) : KnowledgeGraphNode :=
  let chainIdPart :=
    match dep.chainId with
    | some n => if n == 0 then "Unknown" else toString n
    | none => "Unknown"
  { id := "deployment-" ++ toString nid,
    label := chainIdPart ++ ":" ++ (strOr dep.address "0x...").take 8 ++ "...",
    type := "deployment",
    group := 4,
    details := .deployment
      { description := "Blockchain deployment",
        chainId := dep.chainId,
        address := dep.address,
        fullAddress := dep.address,
        network := strOrOpt dep.network dep.chainName,
        blockNumber := dep.blockNumber,
        transactionHash := strOrOpt dep.txHash dep.transactionHash },
    connections := 1,
    fx := some (Float.cos ((Float.ofNat index) * 2 * mathPI / (Float.ofNat total)) * 300),
    fy := some (Float.sin ((Float.ofNat index) * 2 * mathPI / (Float.ofNat total)) * 300) }

/-- The deployment nodes and links from `context.contract.deployments`
(`page.tsx` lines 374-407). -/
def ctxDepSection (contractId : String) (total : Nat) :
    List Deployment → Nat → Nat → List KnowledgeGraphNode × List KnowledgeGraphLink
  | [], _, _ => ([], [])
  | dep :: rest, index, nid =>
    let node := mkDeploymentNode dep index total nid
    let lnk : KnowledgeGraphLink :=
      { source := contractId, target := node.id, label := "deployed on",
        strength := 1, type := "deployment" }
    let rest' := ctxDepSection contractId total rest (index + 1) (nid + 1)
    (node :: rest'.1, lnk :: rest'.2)

/-- The deployment nodes and links from the top-level `data.deployments`
(`page.tsx` lines 410-444): an entry is skipped when some context deployment has
a `===`-equal address (an absent context list skips nothing); skipped entries
still consume a layout index but no node id. -/
def extraDepSection (contractId : String) (ctxDeps : Option (List Deployment)) (total : Nat) :
    List Deployment → Nat → Nat → List KnowledgeGraphNode × List KnowledgeGraphLink
  | [], _, _ => ([], [])
  | dep :: rest, index, nid =>
    let skip :=
      match ctxDeps with
      | some ds => ds.any (fun d => d.address == dep.address)
      | none => false
    if skip then extraDepSection contractId ctxDeps total rest (index + 1) nid
    else
      let node := mkDeploymentNode dep index total nid
      let lnk : KnowledgeGraphLink :=
        { source := contractId, target := node.id, label := "deployed on",
          strength := 1, type := "deployment" }
      let rest' := extraDepSection contractId ctxDeps total rest (index + 1) (nid + 1)
      (node :: rest'.1, lnk :: rest'.2)

/-- The contract node's label (`page.tsx` lines 124-128): the JS `||` chain over
`metadata?.owner`, `metadata?.name`, `context?.contract?.name`, `name`, `"Contract"`. -/
def contractLabel (data : ERC7730Doc) : String :=
  strOr (data.metadata.bind Metadata.owner)
    (strOr (data.metadata.bind Metadata.name)
      (strOr ((data.context.bind Context.contract).bind ContractContext.name)
        (strOr data.name "Contract")))

/-- `createKnowledgeGraphFromERC7730` (`page.tsx` lines 118-447). Node ids are
assigned from a counter starting at 0 (contract first, then operations with
their fields interleaved, then deployments); `connections` fields carry the
final values after all the increment statements of the source. -/
def createKnowledgeGraphFromERC7730 (data : ERC7730Doc) : KnowledgeGraphData :=
  let contractId := "contract-0"
  let ops := buildOpsMap data
  let opPart := opSection contractId ops.length ops 0 1
  let nidAfterOps := 1 + opPart.1.length
  let ctxDeps := (data.context.bind Context.contract).bind ContractContext.deployments
  let ctxDepList := ctxDeps.getD []
  let ctxPart := ctxDepSection contractId ctxDepList.length ctxDepList 0 nidAfterOps
  let extras := data.deployments.getD []
  let extraPart := extraDepSection contractId ctxDeps extras.length extras 0
    (nidAfterOps + ctxPart.1.length)
  let contractNode : KnowledgeGraphNode :=
    { id := contractId,
      label := contractLabel data,
      type := "contract",
      group := 1,
      details := .contract
        { metadata := data.metadata,
          context := data.context,
          owner := data.metadata.bind Metadata.owner,
          name := data.metadata.bind Metadata.name,
          legalName := (data.metadata.bind Metadata.info).bind Info.legalName,
          url := (data.metadata.bind Metadata.info).bind Info.url,
          version := data.metadata.bind Metadata.version,
          description := data.metadata.bind Metadata.description },
      connections := ops.length + ctxPart.1.length + extraPart.1.length,
      fx := some 0,
      fy := some 0 }
  { nodes := contractNode :: (opPart.1 ++ ctxPart.1 ++ extraPart.1),
    links := opPart.2 ++ ctxPart.2 ++ extraPart.2 }

/-! ## Chain-anchor stage (`publishToBlockchain` in `publish-blockchain.ts`) -/

/-- A JS error object as observed by the catch blocks: an optional numeric
`code` and a `message`. -/
structure JsError where
  code : Option Int := none
  message : String := ""

/-- The injected wallet environment: whether `window.ethereum` exists and the
outcome of each external call the stage makes, in order. The web3 contract
construction, ABI encoding and transaction submission are modelled as one
external step whose outcome is `sendTransactionResult`. -/
structure WalletEnv where
  ethereumPresent : Bool := true
  requestAccountsResult : Except JsError (List String) := .ok []
  chainIdResult : Except JsError String := .ok ""
  switchChainResult : Except JsError Unit := .ok ()
  sendTransactionResult : Except JsError String := .ok ""

/-- The numeric value of a digit-character list, most significant first. -/
def digitsToNatAux (acc : Nat) : List Char → Nat
  | [] => acc
  | c :: cs => digitsToNatAux (acc * 10 + (c.toNat - 48)) cs

/-- JS `parseInt(s, 10)`: skip leading whitespace, take an optional sign and
the longest digit prefix; `NaN` (here `none`) when no digits are found. -/
def jsParseInt (s : String) : Option Int :=
  let t := s.data.dropWhile Char.isWhitespace
  let signNeg := match t with | c :: _ => c == '-' | [] => false
  let t2 := match t with
    | c :: rest => if c == '-' || c == '+' then rest else t
    | [] => t
  let digits := t2.takeWhile Char.isDigit
  if digits.isEmpty then none
  else
    let n : Nat := digitsToNatAux 0 digits
    if signNeg then some (-(n : Int)) else some (n : Int)

/-- JS `n.toString(16)` for a natural number (lowercase hex digits). -/
def natToHex (n : Nat) : String :=
  (Nat.toDigits 16 n).asString

/-- JS `n.toString(16)` for an integer. -/
def intToHex (i : Int) : String :=
  if i < 0 then "-" ++ natToHex i.natAbs else natToHex i.natAbs

/-- The `BlockchainPublishResult` interface of `publish-blockchain.ts`. -/
structure BlockchainPublishResult where
  txHash : String
  success : Bool

/-- The `try` block of `publishToBlockchain` (lines 139-189): wallet presence,
account request, chain check with optional switch (error code 4902 mapped to the
network-not-configured message, any other switch error rethrown as-is), then
transaction submission. Errors are the thrown messages before the outer wrap. -/
def publishToBlockchainTry (chainIdNum : Int) (w : WalletEnv) :
    Except String BlockchainPublishResult :=
  if !w.ethereumPresent then
    .error "MetaMask is not installed. Please install MetaMask to continue."
  else
    match w.requestAccountsResult with
    | .error e => .error e.message
    | .ok accounts =>
      if accounts.length == 0 then .error "No accounts found. Please connect MetaMask."
      else
        match w.chainIdResult with
        | .error e => .error e.message
        | .ok currentChainId =>
          let target := "0x" ++ intToHex chainIdNum
          let afterSwitch : Except String Unit :=
            if !(currentChainId == target) then
              match w.switchChainResult with
              | .ok _ => .ok ()
              | .error se =>
                if se.code == some 4902 then
                  .error ("Network with chainId " ++ toString chainIdNum
                    ++ " is not configured. Please add it to MetaMask.")
                else .error se.message
            else .ok ()
          match afterSwitch with
          | .error m => .error m
          | .ok _ =>
            match w.sendTransactionResult with
            | .error e => .error e.message
            | .ok tx => .ok { txHash := tx, success := true }

/-- `publishToBlockchain` (lines 116-194). The configuration checks (lines
123-133) happen before the `try`, so their errors are not wrapped; everything
thrown inside the `try` is re-wrapped as `Failed to publish to blockchain: ...`. -/
def publishToBlockchain (contractAddress chainIdEnv : Option String) (w : WalletEnv) :
    Except String BlockchainPublishResult :=
  if !(optStrTruthy contractAddress) then
    .error "Contract address not configured. Set NEXT_PUBLIC_CONTRACT_ADDRESS environment variable."
  else if !(optStrTruthy chainIdEnv) then
    .error "Chain ID not configured. Set NEXT_PUBLIC_CHAIN_ID environment variable."
  else
    match jsParseInt (chainIdEnv.getD "") with
    | none => .error "Invalid chain ID in environment variable."
    | some chainIdNum =>
      match publishToBlockchainTry chainIdNum w with
      | .ok r => .ok r
      | .error m => .error ("Failed to publish to blockchain: " ++ m)

/-! ## Stage-2 gating in the page (`handlePublishToBlockchain`, `page.tsx` lines 545-561) -/

/-- The `walrusResult` React state (`page.tsx` lines 47-57). -/
structure WalrusResultState where
  success : Bool
  blobId : Option String := none
  registeredEpoch : Option Nat := none
  size : Option Nat := none
  cost : Option Nat := none
  alreadyCertified : Option Bool := none
  endEpoch : Option Nat := none
  txDigest : Option String := none
  error : Option String := none

/-- What `handlePublishToBlockchain` does before any external interaction:
`abortedNoBlobId` is the early return of lines 546-553 (an error toast and
`return` — `publishToBlockchain`, and with it every network and wallet call, is
never invoked); `invokedPublish b` records that it proceeded to call
`publishToBlockchain({blobId: b})`. -/
inductive Stage2Action where
  | abortedNoBlobId
  | invokedPublish (blobId : String)

/-- The precondition gate of `handlePublishToBlockchain`
(`if (!walrusResult?.success || !walrusResult.blobId) { ...; return; }`). -/
def handlePublishToBlockchain (walrusResult : Option WalrusResultState) : Stage2Action :=
  if !(match walrusResult with | some w => w.success | none => false)
      || !(optStrTruthy (walrusResult.bind WalrusResultState.blobId)) then
    .abortedNoBlobId
  else
    .invokedPublish ((walrusResult.bind WalrusResultState.blobId).getD "")

/-! ## Knowledge-graph route validation (the API route `POST`) -/

/-- The request body of the knowledge-graph publish route; `erc7730Data` is only
checked for presence (any object is truthy). -/
structure PublishRequestBody where
  contractAddress : Option String := none
  chainId : Option String := none
  contractName : Option String := none
  erc7730Data : Option ERC7730Doc := none

/-- The observable outcome of the route up to the end of input and key
validation: `badRequest` is a 400 response returned before the wallet is set up
and before any graph operation, IPFS publish, calldata exchange or transaction
submission; `proceeds` records the formatted signing key with which the route
continues into those steps. -/
inductive KgPostOutcome where
  | badRequest (message : String)
  | proceeds (formattedPrivateKey : String)

/-- A character matched by `[a-fA-F0-9]`. -/
def isHexDigitChar (c : Char) : Bool :=
  c.isDigit || (decide ('a' ≤ c) && decide (c ≤ 'f')) || (decide ('A' ≤ c) && decide (c ≤ 'F'))

/-- The regex `^0x[a-fA-F0-9]{64}$`: a `0x` prefix followed by exactly 64 hex
characters and nothing else. -/
def matchesPrivateKeyRegex (s : String) : Bool :=
  jsStartsWith s "0x" && (s.data.drop 2).length == 64 && (s.data.drop 2).all isHexDigitChar

/-- The validation prefix of the route handler (lines 22-49): required body
fields, then the `PRIVATE_KEY` environment value (missing or empty rejected),
then `0x`-normalization and the format regex. -/
def kgPost (body : PublishRequestBody) (privateKeyEnv : Option String) : KgPostOutcome :=
  if !(optStrTruthy body.contractAddress) || !(optStrTruthy body.chainId)
      || !(optStrTruthy body.contractName) || !body.erc7730Data.isSome then
    .badRequest "Missing required fields"
  else if !(optStrTruthy privateKeyEnv) then
    .badRequest "Private key required. Set PRIVATE_KEY environment variable."
  else
    let privateKey := privateKeyEnv.getD ""
    let formattedPrivateKey :=
      if jsStartsWith privateKey "0x" then privateKey else "0x" ++ privateKey
    if !(matchesPrivateKeyRegex formattedPrivateKey) then
      .badRequest "Invalid private key format. Must be a 64-character hex string."
    else
      .proceeds formattedPrivateKey

/-! ## Spec-side refinement definitions for the contract-label and field-direction claims -/

/-- The first non-empty value of an optional-string chain, written from the
spec wording of the fallback-chain pattern. -/
def firstNonEmpty : List (Option String) → Option String
  | [] => none
  | a :: rest => if optStrTruthy a then a else firstNonEmpty rest

/-- Refinement-side definition, written from the claim: the contract label is
the first non-empty of owner name, metadata name, in-context contract name and
top-level document name, defaulting to `"Contract"`. -/
def specContractLabel (data : ERC7730Doc) : String :=
  (firstNonEmpty
    [data.metadata.bind Metadata.owner,
     data.metadata.bind Metadata.name,
     (data.context.bind Context.contract).bind ContractContext.name,
     data.name]).getD "Contract"

/-- Refinement-side definition, written from the claim: a field counts as an
output when its path contains `output` or `return`, or it carries an explicit
output flag or direction marker. -/
def specFieldIsOutput (f : DisplayField) : Bool :=
  jsIncludes (jsFieldPath f) "output" || jsIncludes (jsFieldPath f) "return"
    || (f.output == some true) || (f.direction == some "output")

/-! ## Accessors and concrete documents used by the verification -/

/-- The operation attribute bag of a node, when it is an operation node. -/
def operationDetailsOf (n : KnowledgeGraphNode) : Option OperationDetails :=
  match n.details with
  | .operation d => some d
  | _ => none

/-- The field attribute bag of a node, when it is a field node. -/
def fieldDetailsOf (n : KnowledgeGraphNode) : Option FieldDetails :=
  match n.details with
  | .field d => some d
  | _ => none

/-- Whether a node is an operation node whose emitted signature equals `s`. -/
def isOpNodeWithSig (s : String) (n : KnowledgeGraphNode) : Bool :=
  match n.details with
  | .operation d => d.signature == s
  | _ => false

/-- How many rows of the operation table carry the key `s`. -/
def keyCount (m : OpsMap) (s : String) : Nat :=
  (m.filter (fun p => p.1 == s)).length

/-- The ABI entry of the end-to-end scenario: a view-only `balanceOf(address)`. -/
def balanceOfAbi : AbiFunction :=
  { type := "function", name := "balanceOf", stateMutability := some "view",
    inputs := some [{ type := "address", name := some "account" }],
    outputs := some [{ type := "uint256" }] }

/-- The single address-typed input field of the end-to-end scenario. -/
def accountField : DisplayField :=
  { path := some "#.account", label := some "Account", format := some "addressName" }

/-- The end-to-end scenario document: one view-only operation `balanceOf(address)`
present in the ABI and in the display formats under the matching signature key,
with one address-typed input field. -/
def balanceOfDoc : ERC7730Doc :=
  { context := some { contract := some { abi := some [balanceOfAbi] } },
    display := some
      { formats := some [("balanceOf(address)", { fields := some [accountField] })] } }

/-- A display field whose path contains `output` and which carries no explicit
direction flags. -/
def outputPathField : DisplayField :=
  { path := some "output", label := some "Result" }

/-- A document whose single operation has `outputPathField` as its only display field. -/
def outputPathDoc : ERC7730Doc :=
  { display := some
      { formats := some [("getResult()", { fields := some [outputPathField] })] } }

/-- A document whose only populated label source is the top-level `name`. -/
def topLevelNameDoc : ERC7730Doc :=
  { name := some "TopLevelOnly" }

/-- A Walrus success body whose `newlyCreated.blobObject` is present but empty:
it matches neither recognized success shape, yet carries the discriminator the
code checks. -/
def emptyBlobObjectBody : WalrusResponse :=
  { newlyCreated := some { blobObject := some {} } }

/-- The default publisher URL of `publish-walrus.ts`. -/
def defaultPublisherUrl : String :=
  "https://walrus-testnet-publisher.starduststaking.com"

/-- A fully-populated already-certified Walrus success body. -/
def certifiedBody : WalrusResponse :=
  { alreadyCertified := some
      { blobId := some "BlobB", endEpoch := some 9,
        event := some { txDigest := some "TxD" } } }

/-- A request body for the knowledge-graph route with all required fields present. -/
def kgBody : PublishRequestBody :=
  { contractAddress := some "0xC0ffee", chainId := some "1",
    contractName := some "Token", erc7730Data := some {} }

/-- A 64-character hex signing key without the `0x` prefix. -/
def bareHexKey : String :=
  String.mk (List.replicate 64 (Char.ofNat 97))

/-- An ABI entry for a pure function whose legacy constant flag is absent. -/
def pureAbi : AbiFunction :=
  { type := "function", name := "calc", stateMutability := some "pure" }

/-- The operations-table row the ABI pass seeds for `pureAbi`. -/
def pureRow : OperationRow :=
  { name := "calc", abi := some pureAbi, display := none, inputs := [], outputs := [] }

/-- A document whose contract has `pureAbi` as its only ABI entry. -/
def pureDoc : ERC7730Doc :=
  { context := some { contract := some { abi := some [pureAbi] } } }

/-! # Verification -/

/-- Pulling one link out of the spec-side fallback chain. -/
theorem strOr_firstNonEmpty (a : Option String) (rest : List (Option String)) (d : String) :
    strOr a ((firstNonEmpty rest).getD d) = (firstNonEmpty (a :: rest)).getD d := by
  cases a with
  | none => simp [strOr, firstNonEmpty, optStrTruthy]
  | some s =>
    by_cases h : s = "" <;> simp [strOr, firstNonEmpty, optStrTruthy, h]

/-- The contract-label chain of the source equals the four-source spec chain. -/
theorem contractLabel_eq_spec (data : ERC7730Doc) :
    contractLabel data = specContractLabel data := by
  unfold contractLabel specContractLabel
  rw [← strOr_firstNonEmpty, ← strOr_firstNonEmpty, ← strOr_firstNonEmpty,
    ← strOr_firstNonEmpty]
  rfl

/-- C2 (counterexample): for the document whose only populated label source is
the top-level `name`, all three sources named by the claim (owner, metadata
name, in-context contract name) are absent, yet the emitted contract node is
labelled with the top-level name instead of the claimed literal `"Contract"`. -/
theorem contract_label_claim_counterexample :
    (topLevelNameDoc.metadata.bind Metadata.owner = none
      ∧ topLevelNameDoc.metadata.bind Metadata.name = none
      ∧ (topLevelNameDoc.context.bind Context.contract).bind ContractContext.name = none)
    ∧ ((createKnowledgeGraphFromERC7730 topLevelNameDoc).nodes.head?).map
        KnowledgeGraphNode.label = some "TopLevelOnly"
    ∧ "TopLevelOnly" ≠ "Contract" :=
  ⟨⟨rfl, rfl, rfl⟩, rfl, by decide⟩

/-- C2 (amended): the contract node's label is resolved by the fixed-priority
fallback chain owner name → metadata name → in-context contract name →
top-level document name → literal `"Contract"`, stopping at the first non-empty
value; in particular it is `"Contract"` exactly when all four named sources are
absent or empty. -/
theorem contract_label_fallback_chain (data : ERC7730Doc) :
    ((createKnowledgeGraphFromERC7730 data).nodes.head?).map KnowledgeGraphNode.label
      = some (specContractLabel data) := by
  rw [← contractLabel_eq_spec]
  rfl

/-- C1 (counterexample): for the document whose single display field has path
`"output"` (so the claim's output condition holds) and no explicit flags, the
emitted field node's `inputOutput` attribute is `"input"`, not `"output"`. -/
theorem field_direction_claim_counterexample :
    specFieldIsOutput outputPathField = true
    ∧ (((createKnowledgeGraphFromERC7730 outputPathDoc).nodes[2]?).bind fieldDetailsOf).map
        FieldDetails.inputOutput = some "input"
    ∧ "input" ≠ "output" :=
  ⟨rfl, rfl, by decide⟩

/-- C1 (amended): the emitted field node's `inputOutput` attribute is
`"output"` exactly when the field's path contains neither `"#."` nor `"input"`,
its explicit input flag is exactly `false`, and its direction is exactly
`"output"`; it is `"input"` in every other case. -/
theorem field_direction_classification (f : DisplayField) (opFx opFy : Float)
    (fieldIndex nFields nid : Nat) :
    ((fieldDetailsOf (mkFieldNode f opFx opFy fieldIndex nFields nid)).map
        FieldDetails.inputOutput = some "output")
      ↔ (jsIncludes (jsFieldPath f) "#." = false
          ∧ jsIncludes (jsFieldPath f) "input" = false
          ∧ f.input = some false ∧ f.direction = some "output") := by
  have h1 : fieldDetailsOf (mkFieldNode f opFx opFy fieldIndex nFields nid)
      = some (mkFieldDetails f) := rfl
  have h2 : (mkFieldDetails f).inputOutput
      = if jsFieldIsInput f then "input" else "output" := rfl
  rw [h1, Option.map_some', h2]
  have hiff : (some (if jsFieldIsInput f then "input" else "output") = some "output")
      ↔ jsFieldIsInput f = false := by
    cases hc : jsFieldIsInput f with
    | true => decide
    | false => decide
  rw [hiff]
  unfold jsFieldIsInput
  constructor
  · intro h
    have hA := Bool.or_eq_false_iff.mp h
    have hB := Bool.or_eq_false_iff.mp hA.1
    have hC := Bool.or_eq_false_iff.mp hB.1
    refine ⟨hC.1, hC.2, ?_, ?_⟩
    · have hD := hB.2
      rw [Bool.not_eq_false'] at hD
      exact beq_iff_eq.mp hD
    · have hD := hA.2
      rw [Bool.not_eq_false'] at hD
      exact beq_iff_eq.mp hD
  · rintro ⟨ha, hb, hin, hdir⟩
    rw [ha, hb, hin, hdir]
    decide

/-- C3 (counterexample): a success body whose `newlyCreated.blobObject` is
present but empty matches neither recognized success shape, yet `publishToWalrus`
returns a success result whose content identifier is absent. -/
theorem walrus_malformed_claim_counterexample :
    specNewlyCreatedShape emptyBlobObjectBody = false
    ∧ specAlreadyCertifiedShape emptyBlobObjectBody = false
    ∧ publishToWalrus defaultPublisherUrl (.success emptyBlobObjectBody)
        = .ok { blobId := none, registeredEpoch := none, size := none, cost := none,
                alreadyCertified := false, endEpoch := none, txDigest := none } :=
  ⟨rfl, rfl, rfl⟩

/-- C3 (amended): when a success body carries neither of the two discriminators
the code checks (`newlyCreated.blobObject` and `alreadyCertified`),
`publishToWalrus` fails with the unexpected-response-structure error and never
returns a success; but a present-yet-incomplete `newlyCreated.blobObject` is
accepted, so the identifier of a returned success may still be absent. -/
theorem walrus_unexpected_structure_error (url : String) (r : WalrusResponse)
    (hnc : r.newlyCreated.bind NewlyCreated.blobObject = none)
    (hac : r.alreadyCertified = none) :
    publishToWalrus url (.success r)
      = .error "Failed to publish to Walrus: Invalid response format from Walrus: unexpected response structure" := by
  have hcert : handleWalrusBodyCertified r
      = .error "Invalid response format from Walrus: unexpected response structure" := by
    unfold handleWalrusBodyCertified
    rw [hac]
  have hbody : handleWalrusBody r
      = .error "Invalid response format from Walrus: unexpected response structure" := by
    cases h : r.newlyCreated with
    | none => simp only [handleWalrusBody, h]; exact hcert
    | some nc =>
      rw [h] at hnc
      have hb : nc.blobObject = none := hnc
      simp only [handleWalrusBody, h, hb]
      exact hcert
  have hstep : publishToWalrus url (.success r)
      = match handleWalrusBody r with
        | .ok v => .ok v
        | .error e => .error ("Failed to publish to Walrus: " ++ e) := rfl
  rw [hstep, hbody]
  rfl

/-- C3 (amended) witness at the empty success body. -/
theorem walrus_unexpected_structure_error_witness :
    publishToWalrus defaultPublisherUrl (.success {})
      = .error "Failed to publish to Walrus: Invalid response format from Walrus: unexpected response structure" :=
  walrus_unexpected_structure_error defaultPublisherUrl {} rfl rfl

/-- C4: a response of the already-certified shape (and without the
newly-created discriminator) yields a success whose `alreadyCertified` flag is
true and whose blob identifier is taken from the `alreadyCertified` body; it is
not treated as a failure. -/
theorem walrus_already_certified_success (url : String) (r : WalrusResponse)
    (hnc : r.newlyCreated = none)
    (hshape : specAlreadyCertifiedShape r = true) :
    ∃ v, publishToWalrus url (.success r) = .ok v
      ∧ v.alreadyCertified = true
      ∧ v.blobId = r.alreadyCertified.bind AlreadyCertified.blobId
      ∧ v.blobId.isSome := by
  cases hac : r.alreadyCertified with
  | none => simp [specAlreadyCertifiedShape, hac] at hshape
  | some ac =>
    cases hev : ac.event with
    | none => simp [specAlreadyCertifiedShape, hac, hev] at hshape
    | some ev =>
      have hblob : ac.blobId.isSome = true := by
        cases hb : ac.blobId with
        | none => simp [specAlreadyCertifiedShape, hac, hev, hb] at hshape
        | some b => rfl
      refine ⟨{ blobId := ac.blobId, endEpoch := ac.endEpoch,
                txDigest := ev.txDigest, alreadyCertified := true }, ?_, rfl, rfl, hblob⟩
      have hb : handleWalrusBody r
          = .ok { blobId := ac.blobId, endEpoch := ac.endEpoch,
                  txDigest := ev.txDigest, alreadyCertified := true } := by
        simp only [handleWalrusBody, handleWalrusBodyCertified, hnc, hac, hev]
      have hstep : publishToWalrus url (.success r)
          = match handleWalrusBody r with
            | .ok v => .ok v
            | .error e => .error ("Failed to publish to Walrus: " ++ e) := rfl
      rw [hstep, hb]

/-- C4 witness at a fully-populated already-certified body. -/
theorem walrus_already_certified_success_witness :
    ∃ v, publishToWalrus defaultPublisherUrl (.success certifiedBody) = .ok v
      ∧ v.alreadyCertified = true
      ∧ v.blobId = certifiedBody.alreadyCertified.bind AlreadyCertified.blobId
      ∧ v.blobId.isSome :=
  walrus_already_certified_success defaultPublisherUrl certifiedBody rfl rfl

/-- C5: for the document with one view-only operation `balanceOf(address)`
having one address-typed input field, the builder yields exactly three nodes
(contract, operation, field) and two links (contract to operation, operation to
field), and the operation node has `isReadOnly = true` and
`hasStateChange = false`. -/
theorem balanceof_end_to_end :
    (createKnowledgeGraphFromERC7730 balanceOfDoc).nodes.length = 3
    ∧ (createKnowledgeGraphFromERC7730 balanceOfDoc).links.length = 2
    ∧ (createKnowledgeGraphFromERC7730 balanceOfDoc).nodes.map KnowledgeGraphNode.type
        = ["contract", "operation", "field"]
    ∧ (createKnowledgeGraphFromERC7730 balanceOfDoc).links.map
        (fun l => (l.source, l.target))
        = [("contract-0", "operation-1"), ("operation-1", "field-2")]
    ∧ (((createKnowledgeGraphFromERC7730 balanceOfDoc).nodes[1]?).bind
        operationDetailsOf).map (fun d => (d.isReadOnly, d.hasStateChange))
        = some (true, false) :=
  ⟨rfl, rfl, rfl, rfl, rfl⟩

/-- C7: when no successful Walrus result with a blob identifier is present, the
stage-2 handler aborts with the early-return error path and never reaches the
`publishToBlockchain` call (so no network or wallet interaction happens). -/
theorem stage2_gate_aborts_without_blob (walrusResult : Option WalrusResultState)
    (h : ∀ w, walrusResult = some w → w.success = true → w.blobId = none) :
    handlePublishToBlockchain walrusResult = Stage2Action.abortedNoBlobId := by
  cases hw : walrusResult with
  | none => rfl
  | some w =>
    unfold handlePublishToBlockchain
    cases hs : w.success with
    | false => simp [hs]
    | true =>
      have hb := h w hw hs
      simp [hs, hb, optStrTruthy]

/-- C7 witness: the gate aborts when stage 1 has not run at all. -/
theorem stage2_gate_aborts_without_blob_witness :
    handlePublishToBlockchain none = Stage2Action.abortedNoBlobId :=
  stage2_gate_aborts_without_blob none (fun _ h => nomatch h)

/-- Left-cancellation of string append, via the underlying character lists. -/
theorem string_append_cancel_left (a b c : String) (h : a ++ b = a ++ c) : b = c := by
  have hd : a.data ++ b.data = a.data ++ c.data := congrArg String.data h
  have h2 := List.append_cancel_left hd
  cases b; cases c; exact congrArg String.mk h2

/-- C8: with valid configuration, a connected account, and a reported chain id
different from the target, a switch failure with error code 4902 produces the
distinct network-not-configured error, while a switch failure with any other
code surfaces that error's own message; given the messages differ, the two
failures are distinct. -/
theorem stage2_unknown_network_distinct
    (caddr cidStr : String) (n : Int) (accounts : List String) (cur m1 m2 : String)
    (c2 : Option Int) (send1 send2 : Except JsError String)
    (hca : (caddr == "") = false)
    (hcid : (cidStr == "") = false)
    (hparse : jsParseInt cidStr = some n)
    (haccs : (accounts.length == 0) = false)
    (hcur : (cur == "0x" ++ intToHex n) = false)
    (hc2 : (c2 == some 4902) = false)
    (hm2 : m2 ≠ "Network with chainId " ++ toString n
        ++ " is not configured. Please add it to MetaMask.") :
    publishToBlockchain (some caddr) (some cidStr)
      { ethereumPresent := true, requestAccountsResult := .ok accounts,
        chainIdResult := .ok cur,
        switchChainResult := .error { code := some 4902, message := m1 },
        sendTransactionResult := send1 }
      = .error ("Failed to publish to blockchain: Network with chainId " ++ toString n
          ++ " is not configured. Please add it to MetaMask.")
    ∧ publishToBlockchain (some caddr) (some cidStr)
      { ethereumPresent := true, requestAccountsResult := .ok accounts,
        chainIdResult := .ok cur,
        switchChainResult := .error { code := c2, message := m2 },
        sendTransactionResult := send2 }
      = .error ("Failed to publish to blockchain: " ++ m2)
    ∧ (Except.error ("Failed to publish to blockchain: Network with chainId " ++ toString n
          ++ " is not configured. Please add it to MetaMask.")
        : Except String BlockchainPublishResult)
      ≠ .error ("Failed to publish to blockchain: " ++ m2) := by
  refine ⟨?_, ?_, ?_⟩
  · simp [publishToBlockchain, publishToBlockchainTry, optStrTruthy, hca, hcid,
      hparse, haccs, hcur, String.append_assoc]
    rw [← String.append_assoc]
    rfl
  · simp [publishToBlockchain, publishToBlockchainTry, optStrTruthy, hca, hcid,
      hparse, haccs, hcur, hc2]
  · intro h
    have h' := (Except.error.injEq _ _).mp h
    exact hm2 (string_append_cancel_left "Failed to publish to blockchain: " _ _ h').symm

/-- C8 witness at Sepolia-like concrete values. -/
theorem stage2_unknown_network_distinct_witness :
    publishToBlockchain (some "0xC0ffee") (some "11155111")
      { ethereumPresent := true, requestAccountsResult := .ok ["0xacc"],
        chainIdResult := .ok "0x1",
        switchChainResult := .error { code := some 4902, message := "switch failed" },
        sendTransactionResult := .ok "0xtx" }
      = .error ("Failed to publish to blockchain: Network with chainId " ++ toString (11155111 : Int)
          ++ " is not configured. Please add it to MetaMask.")
    ∧ publishToBlockchain (some "0xC0ffee") (some "11155111")
      { ethereumPresent := true, requestAccountsResult := .ok ["0xacc"],
        chainIdResult := .ok "0x1",
        switchChainResult := .error { code := some 4001, message := "User rejected the request" },
        sendTransactionResult := .ok "0xtx" }
      = .error ("Failed to publish to blockchain: " ++ "User rejected the request")
    ∧ (Except.error ("Failed to publish to blockchain: Network with chainId "
          ++ toString (11155111 : Int) ++ " is not configured. Please add it to MetaMask.")
        : Except String BlockchainPublishResult)
      ≠ .error ("Failed to publish to blockchain: " ++ "User rejected the request") :=
  stage2_unknown_network_distinct "0xC0ffee" "11155111" 11155111 ["0xacc"] "0x1"
    "switch failed" "User rejected the request" (some 4001) (.ok "0xtx") (.ok "0xtx")
    rfl rfl (by decide) rfl (by decide) rfl (by decide)

/-- C9: with a valid request body, a missing or empty signing key is rejected
with the configuration error; a present key is `0x`-normalized and then either
accepted (when the normalized key matches `^0x[a-fA-F0-9]{64}$`) or rejected
with the invalid-format error — in both rejection cases before the route
reaches any wallet, IPFS, calldata or transaction step. -/
theorem kg_signing_key_validation (body : PublishRequestBody)
    (hb : (optStrTruthy body.contractAddress && optStrTruthy body.chainId
        && optStrTruthy body.contractName && body.erc7730Data.isSome) = true) :
    (∀ k, optStrTruthy k = false →
        kgPost body k
          = .badRequest "Private key required. Set PRIVATE_KEY environment variable.")
    ∧ (∀ key, (key == "") = false →
        kgPost body (some key)
          = (let fk := if jsStartsWith key "0x" then key else "0x" ++ key
             if matchesPrivateKeyRegex fk then KgPostOutcome.proceeds fk
             else .badRequest "Invalid private key format. Must be a 64-character hex string.")) := by
  have hb' := hb
  simp only [Bool.and_eq_true] at hb'
  obtain ⟨⟨⟨h1, h2⟩, h3⟩, h4⟩ := hb'
  constructor
  · intro k hk
    simp [kgPost, h1, h2, h3, h4, hk]
  · intro key hkey
    have hks : optStrTruthy (some key) = true := by simp [optStrTruthy, hkey]
    cases hm : matchesPrivateKeyRegex (if jsStartsWith key "0x" then key else "0x" ++ key) <;>
      simp [kgPost, h1, h2, h3, h4, hks, hm]

/-- C9 witness: the concrete body with a missing key and with a bare 64-hex key. -/
theorem kg_signing_key_validation_witness :
    kgPost kgBody none
      = .badRequest "Private key required. Set PRIVATE_KEY environment variable."
    ∧ kgPost kgBody (some bareHexKey) = .proceeds ("0x" ++ bareHexKey) := by
  have h := kg_signing_key_validation kgBody (by decide)
  refine ⟨h.1 none rfl, ?_⟩
  have h2 := h.2 bareHexKey (by decide)
  rw [h2]
  rfl

/-! ### The operations table: lookup, insertion and key-multiplicity lemmas -/

/-- Unfolding `mapHas` one entry at a time. -/
theorem mapHas_cons (p : String × OperationRow) (rest : OpsMap) (s : String) :
    mapHas (p :: rest) s = ((p.1 == s) || mapHas rest s) := rfl

/-- Unfolding `mapLookup` one entry at a time. -/
theorem mapLookup_cons (p : String × OperationRow) (rest : OpsMap) (s : String) :
    mapLookup (p :: rest) s
      = if (p.1 == s) = true then some p.2 else mapLookup rest s := by
  cases hps : p.1 == s with
  | true => simp [mapLookup, List.find?, hps]
  | false => simp [mapLookup, List.find?, hps]

/-- Unfolding `keyCount` one entry at a time. -/
theorem keyCount_cons (p : String × OperationRow) (rest : OpsMap) (s : String) :
    keyCount (p :: rest) s
      = keyCount rest s + (if (p.1 == s) = true then 1 else 0) := by
  cases hps : p.1 == s with
  | true => simp [keyCount, List.filter_cons, hps]
  | false => simp [keyCount, List.filter_cons, hps]

/-- Unfolding `mapUpdate` one entry at a time. -/
theorem mapUpdate_cons (p : String × OperationRow) (rest : OpsMap) (k : String)
    (f : OperationRow → OperationRow) :
    mapUpdate (p :: rest) k f
      = (if (p.1 == k) = true then (p.1, f p.2) else p) :: mapUpdate rest k f := rfl

/-- Reducing an `if` whose condition is the literal `true = true`. -/
theorem boolIteTrue {α : Type} (a b : α) : (if (true = true) then a else b) = a := rfl

/-- Reducing an `if` whose condition is the literal `false = true`. -/
theorem boolIteFalse {α : Type} (a b : α) : (if (false = true) then a else b) = b := rfl

/-- A key that fails `has` never occurs in the table. -/
theorem keyCount_eq_zero_of_not_has (s : String) :
    ∀ m : OpsMap, mapHas m s = false → keyCount m s = 0 := by
  intro m
  induction m with
  | nil => intro _; rfl
  | cons p rest ih =>
    intro h
    rw [mapHas_cons, Bool.or_eq_false_iff] at h
    rw [keyCount_cons, ih h.2, h.1]
    simp

/-- A successful lookup implies `has`. -/
theorem mapHas_of_lookup (m : OpsMap) (s : String) (r : OperationRow)
    (h : mapLookup m s = some r) : mapHas m s = true := by
  simp only [mapLookup, Option.map_eq_some'] at h
  obtain ⟨p, hp, _⟩ := h
  have hmem := List.mem_of_find?_eq_some hp
  have hpred := List.find?_some hp
  simp only [mapHas, List.any_eq_true]
  exact ⟨p, hmem, hpred⟩

/-- Lookup after appending a fresh key. -/
theorem lookup_append_single (k : String) (v : OperationRow) :
    ∀ m : OpsMap, mapHas m k = false → mapLookup (m ++ [(k, v)]) k = some v := by
  intro m
  induction m with
  | nil => intro _; simp [mapLookup_cons]
  | cons p rest ih =>
    intro h
    rw [mapHas_cons, Bool.or_eq_false_iff] at h
    rw [List.cons_append, mapLookup_cons, h.1]
    simp only [Bool.false_eq_true, if_false]
    exact ih h.2

/-- Lookup of another key is unchanged by appending a fresh pair. -/
theorem lookup_append_single_ne (k : String) (v : OperationRow) (s : String)
    (hks : k ≠ s) :
    ∀ m : OpsMap, mapLookup (m ++ [(k, v)]) s = mapLookup m s := by
  intro m
  induction m with
  | nil =>
    have hks' : (k == s) = false := beq_eq_false_iff_ne.mpr hks
    simp [mapLookup_cons, hks', mapLookup]
  | cons p rest ih =>
    rw [List.cons_append, mapLookup_cons, mapLookup_cons]
    cases hps : p.1 == s with
    | true => rfl
    | false => simpa using ih

/-- Lookup after the in-place overwrite branch of `mapSet`. -/
theorem lookup_map_overwrite (k : String) (v : OperationRow) :
    ∀ m : OpsMap, mapHas m k = true →
      mapLookup (m.map (fun p => if p.1 == k then (k, v) else p)) k = some v := by
  intro m
  induction m with
  | nil => intro h; simp [mapHas] at h
  | cons p rest ih =>
    intro h
    rw [List.map_cons]
    cases hpk : p.1 == k with
    | true =>
      rw [boolIteTrue]
      simp only [mapLookup_cons, beq_self_eq_true, if_true]
    | false =>
      rw [mapHas_cons, hpk, Bool.false_or] at h
      rw [boolIteFalse, mapLookup_cons, hpk, boolIteFalse]
      exact ih h

/-- Lookup of another key is unchanged by the in-place overwrite. -/
theorem lookup_map_overwrite_ne (k : String) (v : OperationRow) (s : String)
    (hks : k ≠ s) :
    ∀ m : OpsMap,
      mapLookup (m.map (fun p => if p.1 == k then (k, v) else p)) s = mapLookup m s := by
  intro m
  induction m with
  | nil => rfl
  | cons p rest ih =>
    rw [List.map_cons]
    cases hpk : p.1 == k with
    | true =>
      have hp1 : p.1 = k := beq_iff_eq.mp hpk
      have hks' : (k == s) = false := beq_eq_false_iff_ne.mpr hks
      have hps : (p.1 == s) = false := by rw [hp1]; exact hks'
      rw [boolIteTrue]
      simp only [mapLookup_cons, hks', hps, boolIteFalse]
      exact ih
    | false =>
      rw [boolIteFalse, mapLookup_cons, mapLookup_cons]
      cases hps : p.1 == s with
      | true => rfl
      | false => simpa using ih

/-- `mapSet` stores the value under its key. -/
theorem mapSet_lookup_self (m : OpsMap) (k : String) (v : OperationRow) :
    mapLookup (mapSet m k v) k = some v := by
  unfold mapSet
  cases hhas : mapHas m k with
  | true => simpa using lookup_map_overwrite k v m hhas
  | false => simpa using lookup_append_single k v m hhas

/-- `mapSet` does not disturb other keys. -/
theorem mapSet_lookup_ne (m : OpsMap) (k : String) (v : OperationRow) (s : String)
    (hks : k ≠ s) : mapLookup (mapSet m k v) s = mapLookup m s := by
  unfold mapSet
  cases hhas : mapHas m k with
  | true => simpa using lookup_map_overwrite_ne k v s hks m
  | false => simpa using lookup_append_single_ne k v s hks m

/-- `mapUpdate` maps the stored value under its key. -/
theorem mapUpdate_lookup_self (m : OpsMap) (k : String) (f : OperationRow → OperationRow) :
    mapLookup (mapUpdate m k f) k = (mapLookup m k).map f := by
  induction m with
  | nil => rfl
  | cons p rest ih =>
    rw [mapUpdate_cons, mapLookup_cons]
    cases hpk : p.1 == k with
    | true =>
      rw [boolIteTrue]
      simp only [mapLookup_cons, hpk, boolIteTrue]
      rfl
    | false =>
      rw [boolIteFalse, mapLookup_cons, hpk, boolIteFalse]
      exact ih

/-- `mapUpdate` does not disturb other keys. -/
theorem mapUpdate_lookup_ne (m : OpsMap) (k : String) (f : OperationRow → OperationRow)
    (s : String) (hks : k ≠ s) : mapLookup (mapUpdate m k f) s = mapLookup m s := by
  induction m with
  | nil => rfl
  | cons p rest ih =>
    rw [mapUpdate_cons]
    cases hpk : p.1 == k with
    | true =>
      have hp1 : p.1 = k := beq_iff_eq.mp hpk
      have hks' : (k == s) = false := beq_eq_false_iff_ne.mpr hks
      have hps : (p.1 == s) = false := by rw [hp1]; exact hks'
      rw [boolIteTrue]
      simp only [mapLookup_cons, hps, boolIteFalse]
      exact ih
    | false =>
      rw [boolIteFalse, mapLookup_cons, mapLookup_cons]
      cases hps : p.1 == s with
      | true => rfl
      | false => simpa using ih

/-- The in-place overwrite branch of `mapSet` leaves key multiplicities unchanged. -/
theorem keyCount_map_overwrite (k : String) (v : OperationRow) (s : String) :
    ∀ m : OpsMap,
      keyCount (m.map (fun p => if p.1 == k then (k, v) else p)) s = keyCount m s := by
  intro m
  induction m with
  | nil => rfl
  | cons p rest ih =>
    rw [List.map_cons]
    cases hpk : p.1 == k with
    | true =>
      have hp1 : p.1 = k := beq_iff_eq.mp hpk
      rw [boolIteTrue]
      simp only [keyCount_cons, ih, hp1]
    | false =>
      rw [boolIteFalse]
      simp only [keyCount_cons, ih]

/-- Appending a fresh pair adds one occurrence of its key. -/
theorem keyCount_append_single (k : String) (v : OperationRow) (s : String) :
    ∀ m : OpsMap,
      keyCount (m ++ [(k, v)]) s = keyCount m s + (if (k == s) = true then 1 else 0) := by
  intro m
  induction m with
  | nil =>
    cases hks : k == s with
    | true => simp [keyCount, List.filter_cons, hks]
    | false => simp [keyCount, List.filter_cons, hks]
  | cons p rest ih =>
    rw [List.cons_append, keyCount_cons, keyCount_cons, ih]
    omega

/-- `mapSet` keeps every key's multiplicity at most one. -/
theorem keyCount_mapSet_le (m : OpsMap) (k : String) (v : OperationRow) (s : String)
    (h : keyCount m s ≤ 1) : keyCount (mapSet m k v) s ≤ 1 := by
  unfold mapSet
  cases hhas : mapHas m k with
  | true =>
    rw [boolIteTrue, keyCount_map_overwrite]
    exact h
  | false =>
    rw [boolIteFalse, keyCount_append_single]
    cases hks : k == s with
    | true =>
      have hk : k = s := beq_iff_eq.mp hks
      have h0 : keyCount m s = 0 := keyCount_eq_zero_of_not_has s m (hk ▸ hhas)
      rw [boolIteTrue, h0]
    | false =>
      rw [boolIteFalse]
      simpa using h

/-- `mapUpdate` leaves every key's multiplicity unchanged. -/
theorem keyCount_mapUpdate (m : OpsMap) (k : String) (f : OperationRow → OperationRow)
    (s : String) : keyCount (mapUpdate m k f) s = keyCount m s := by
  induction m with
  | nil => rfl
  | cons p rest ih =>
    rw [mapUpdate_cons]
    cases hpk : p.1 == k with
    | true =>
      rw [boolIteTrue]
      simp only [keyCount_cons, ih]
    | false =>
      rw [boolIteFalse]
      simp only [keyCount_cons, ih]

/-- A stored pair contributes to its key's multiplicity. -/
theorem keyCount_pos_of_mem (m : OpsMap) (s : String) (row : OperationRow)
    (h : (s, row) ∈ m) : 1 ≤ keyCount m s := by
  have hmem : (s, row) ∈ m.filter (fun p => p.1 == s) :=
    List.mem_filter.mpr ⟨h, by simp⟩
  simpa [keyCount] using List.length_pos_of_mem hmem

/-- In a table whose key `s` occurs at most once, any stored pair with key `s`
is exactly what lookup returns. -/
theorem lookup_of_mem_of_keyCount_le (s : String) (row : OperationRow) :
    ∀ m : OpsMap, keyCount m s ≤ 1 → (s, row) ∈ m → mapLookup m s = some row := by
  intro m
  induction m with
  | nil => intro _ h; simp at h
  | cons p rest ih =>
    intro hle hmem
    rcases List.mem_cons.mp hmem with heq | hrest
    · rw [← heq, mapLookup_cons]
      simp
    · rw [keyCount_cons] at hle
      rw [mapLookup_cons]
      cases hps : p.1 == s with
      | true =>
        exfalso
        have h1 : 1 ≤ keyCount rest s := keyCount_pos_of_mem rest s row hrest
        rw [hps] at hle
        simp at hle
        omega
      | false =>
        rw [hps] at hle
        simp at hle
        simp only [Bool.false_eq_true, if_false]
        exact ih (by omega) hrest

/-! ### Invariants of the three table-building passes -/

/-- A property preserved by every step is preserved by the whole fold. -/
theorem foldl_preserve {α : Type} (step : OpsMap → α → OpsMap) (P : OpsMap → Prop)
    (hstep : ∀ m x, P m → P (step m x)) :
    ∀ (l : List α) (m : OpsMap), P m → P (l.foldl step m) := by
  intro l
  induction l with
  | nil => intro m h; exact h
  | cons x rest ih => intro m h; exact ih (step m x) (hstep m x h)

/-- A property established by some step of the fold and preserved by every step
holds of the whole fold. -/
theorem foldl_mem_establish {α : Type} (step : OpsMap → α → OpsMap) (P : OpsMap → Prop)
    (hpres : ∀ m x, P m → P (step m x)) (x : α) (hx : ∀ m, P (step m x)) :
    ∀ (l : List α) (m : OpsMap), x ∈ l → P (l.foldl step m) := by
  intro l
  induction l with
  | nil => intro m h; simp at h
  | cons y rest ih =>
    intro m h
    rcases List.mem_cons.mp h with heq | hmem
    · subst heq
      rw [List.foldl_cons]
      exact foldl_preserve step P hpres rest (step m x) (hx m)
    · rw [List.foldl_cons]
      exact ih (step m y) hmem

/-- The ABI pass preserves an abi-seeded row under any key. -/
theorem abiStep_preserves_abiSome (s : String) (m : OpsMap) (b : AbiFunction)
    (h : ∃ row, mapLookup m s = some row ∧ row.abi.isSome = true) :
    ∃ row, mapLookup (abiStep m b) s = some row ∧ row.abi.isSome = true := by
  obtain ⟨row, hl, hs⟩ := h
  unfold abiStep
  cases hb : b.type == "function" with
  | false =>
    refine ⟨row, ?_, hs⟩
    rw [boolIteFalse]
    exact hl
  | true =>
    by_cases hsig : signatureOf b = s
    · refine ⟨{ name := b.name, abi := some b, display := none,
                inputs := b.inputs.getD [], outputs := b.outputs.getD [] }, ?_, rfl⟩
      rw [boolIteTrue, ← hsig]
      exact mapSet_lookup_self m (signatureOf b) _
    · refine ⟨row, ?_, hs⟩
      rw [boolIteTrue, mapSet_lookup_ne m _ _ s hsig]
      exact hl

/-- An ABI entry of kind `function` seeds its own signature key. -/
theorem abiStep_establishes (a : AbiFunction) (hfn : a.type = "function") (m : OpsMap) :
    ∃ row, mapLookup (abiStep m a) (signatureOf a) = some row ∧ row.abi.isSome = true := by
  refine ⟨{ name := a.name, abi := some a, display := none,
            inputs := a.inputs.getD [], outputs := a.outputs.getD [] }, ?_, rfl⟩
  unfold abiStep
  rw [beq_iff_eq.mpr hfn, boolIteTrue]
  exact mapSet_lookup_self m (signatureOf a) _

/-- After the ABI pass, every member function entry has a row with its ABI. -/
theorem abiPass_lookup (l : List AbiFunction) (a : AbiFunction) (ha : a ∈ l)
    (hfn : a.type = "function") :
    ∃ row, mapLookup (abiPass l) (signatureOf a) = some row ∧ row.abi.isSome = true := by
  unfold abiPass
  exact foldl_mem_establish abiStep _ (abiStep_preserves_abiSome (signatureOf a)) a
    (abiStep_establishes a hfn) l [] ha

/-- The display pass does not disturb other keys. -/
theorem displayStep_lookup_ne (m : OpsMap) (kf : String × DisplayFormat) (s : String)
    (hks : kf.1 ≠ s) : mapLookup (displayStep m kf) s = mapLookup m s := by
  unfold displayStep
  cases hhas : mapHas m kf.1 with
  | true =>
    rw [boolIteTrue]
    exact mapUpdate_lookup_ne m kf.1 _ s hks
  | false =>
    rw [boolIteFalse]
    exact mapSet_lookup_ne m kf.1 _ s hks

/-- A display entry whose key is present merges onto the stored row. -/
theorem displayStep_lookup_self (m : OpsMap) (kf : String × DisplayFormat)
    (row : OperationRow) (hl : mapLookup m kf.1 = some row) :
    mapLookup (displayStep m kf) kf.1 = some { row with display := some kf.2 } := by
  unfold displayStep
  rw [mapHas_of_lookup m kf.1 row hl, boolIteTrue, mapUpdate_lookup_self, hl]
  rfl

/-- The display pass preserves an abi-seeded row under any key. -/
theorem displayStep_preserves_abiSome (s : String) (m : OpsMap)
    (kf : String × DisplayFormat)
    (h : ∃ row, mapLookup m s = some row ∧ row.abi.isSome = true) :
    ∃ row, mapLookup (displayStep m kf) s = some row ∧ row.abi.isSome = true := by
  obtain ⟨row, hl, hs⟩ := h
  by_cases hks : kf.1 = s
  · refine ⟨{ row with display := some kf.2 }, ?_, hs⟩
    rw [← hks]
    exact displayStep_lookup_self m kf row (by rw [hks]; exact hl)
  · refine ⟨row, ?_, hs⟩
    rw [displayStep_lookup_ne m kf s hks]
    exact hl

/-- The display pass preserves a fully-merged row under any key. -/
theorem displayStep_preserves_merged (s : String) (m : OpsMap)
    (kf : String × DisplayFormat)
    (h : ∃ row, mapLookup m s = some row ∧ row.abi.isSome = true
        ∧ row.display.isSome = true) :
    ∃ row, mapLookup (displayStep m kf) s = some row ∧ row.abi.isSome = true
      ∧ row.display.isSome = true := by
  obtain ⟨row, hl, h1, h2⟩ := h
  by_cases hks : kf.1 = s
  · refine ⟨{ row with display := some kf.2 }, ?_, h1, rfl⟩
    rw [← hks]
    exact displayStep_lookup_self m kf row (by rw [hks]; exact hl)
  · refine ⟨row, ?_, h1, h2⟩
    rw [displayStep_lookup_ne m kf s hks]
    exact hl

/-- Processing the display entry of an abi-seeded key yields the merged row. -/
theorem displayStep_establishes_merged (s : String) (fmt : DisplayFormat) (m : OpsMap)
    (h : ∃ row, mapLookup m s = some row ∧ row.abi.isSome = true) :
    ∃ row, mapLookup (displayStep m (s, fmt)) s = some row ∧ row.abi.isSome = true
      ∧ row.display.isSome = true := by
  obtain ⟨row, hl, hs⟩ := h
  refine ⟨{ row with display := some fmt }, ?_, hs, rfl⟩
  exact displayStep_lookup_self m (s, fmt) row hl

/-- After the display pass, a key seeded by the ABI pass and present in the
format map carries both sources. -/
theorem displayPass_merged (s : String) (fmt : DisplayFormat) :
    ∀ (fmts : List (String × DisplayFormat)) (m : OpsMap),
      (∃ row, mapLookup m s = some row ∧ row.abi.isSome = true) →
      (s, fmt) ∈ fmts →
      ∃ row, mapLookup (displayPass m fmts) s = some row ∧ row.abi.isSome = true
        ∧ row.display.isSome = true := by
  intro fmts
  induction fmts with
  | nil => intro m _ h; simp at h
  | cons kf rest ih =>
    intro m hp h
    rcases List.mem_cons.mp h with heq | hmem
    · subst heq
      have hq := displayStep_establishes_merged s fmt m hp
      exact foldl_preserve displayStep _ (displayStep_preserves_merged s) rest _ hq
    · exact ih (displayStep m kf) (displayStep_preserves_abiSome s m kf hp) hmem

/-- The `data.operations` pass preserves a fully-merged row under any key. -/
theorem operationsStep_preserves_merged (s : String) (m : OpsMap)
    (kf : String × DisplayFormat)
    (h : ∃ row, mapLookup m s = some row ∧ row.abi.isSome = true
        ∧ row.display.isSome = true) :
    ∃ row, mapLookup (operationsStep m kf) s = some row ∧ row.abi.isSome = true
      ∧ row.display.isSome = true := by
  obtain ⟨row, hl, h1, h2⟩ := h
  refine ⟨row, ?_, h1, h2⟩
  unfold operationsStep
  by_cases hks : kf.1 = s
  · have hhas : mapHas m kf.1 = true := by
      rw [hks]; exact mapHas_of_lookup m s row hl
    rw [hhas, Bool.not_true, boolIteFalse]
    exact hl
  · cases hhas : mapHas m kf.1 with
    | true =>
      rw [Bool.not_true, boolIteFalse]
      exact hl
    | false =>
      rw [Bool.not_false, boolIteTrue, mapSet_lookup_ne m kf.1 _ s hks]
      exact hl

/-- The full table has a merged row for any function present in both sources. -/
theorem buildOpsMap_merged (data : ERC7730Doc) (abiList : List AbiFunction)
    (a : AbiFunction) (fmts : List (String × DisplayFormat)) (fmt : DisplayFormat)
    (habi : (data.context.bind Context.contract).bind ContractContext.abi = some abiList)
    (hmem : a ∈ abiList) (hfn : a.type = "function")
    (hfmts : data.display.bind Display.formats = some fmts)
    (hfmem : (signatureOf a, fmt) ∈ fmts) :
    ∃ row, mapLookup (buildOpsMap data) (signatureOf a) = some row
      ∧ row.abi.isSome = true ∧ row.display.isSome = true := by
  have hx : ((data.context.bind Context.contract).bind ContractContext.abi).getD []
      = abiList := by rw [habi]; rfl
  have hy : (data.display.bind Display.formats).getD [] = fmts := by rw [hfmts]; rfl
  have h1 := abiPass_lookup abiList a hmem hfn
  have h2 := displayPass_merged (signatureOf a) fmt fmts (abiPass abiList) h1 hfmem
  have h3 := foldl_preserve operationsStep _ (operationsStep_preserves_merged (signatureOf a))
    (data.operations.getD []) _ h2
  obtain ⟨row, hl, ha1, ha2⟩ := h3
  refine ⟨row, ?_, ha1, ha2⟩
  show mapLookup (operationsPass (displayPass
      (abiPass (((data.context.bind Context.contract).bind ContractContext.abi).getD []))
      ((data.display.bind Display.formats).getD [])) (data.operations.getD []))
      (signatureOf a) = some row
  rw [hx, hy]
  exact hl

/-- The ABI pass keeps key multiplicities at most one. -/
theorem abiStep_count_le (s : String) (m : OpsMap) (b : AbiFunction)
    (h : keyCount m s ≤ 1) : keyCount (abiStep m b) s ≤ 1 := by
  unfold abiStep
  cases hb : b.type == "function" with
  | true =>
    rw [boolIteTrue]
    exact keyCount_mapSet_le m _ _ s h
  | false =>
    rw [boolIteFalse]
    exact h

/-- The display pass keeps key multiplicities at most one. -/
theorem displayStep_count_le (s : String) (m : OpsMap) (kf : String × DisplayFormat)
    (h : keyCount m s ≤ 1) : keyCount (displayStep m kf) s ≤ 1 := by
  unfold displayStep
  cases hhas : mapHas m kf.1 with
  | true =>
    rw [boolIteTrue, keyCount_mapUpdate]
    exact h
  | false =>
    rw [boolIteFalse]
    exact keyCount_mapSet_le m _ _ s h

/-- The `data.operations` pass keeps key multiplicities at most one. -/
theorem operationsStep_count_le (s : String) (m : OpsMap) (kf : String × DisplayFormat)
    (h : keyCount m s ≤ 1) : keyCount (operationsStep m kf) s ≤ 1 := by
  unfold operationsStep
  cases hhas : mapHas m kf.1 with
  | true =>
    rw [Bool.not_true, boolIteFalse]
    exact h
  | false =>
    rw [Bool.not_false, boolIteTrue]
    exact keyCount_mapSet_le m _ _ s h

/-- Every key occurs at most once in the finished operations table. -/
theorem buildOpsMap_keyCount_le (data : ERC7730Doc) (s : String) :
    keyCount (buildOpsMap data) s ≤ 1 := by
  have h0 : keyCount ([] : OpsMap) s ≤ 1 := by simp [keyCount]
  have h1 := foldl_preserve abiStep (fun m => keyCount m s ≤ 1) (abiStep_count_le s)
    (((data.context.bind Context.contract).bind ContractContext.abi).getD []) [] h0
  have h2 := foldl_preserve displayStep (fun m => keyCount m s ≤ 1) (displayStep_count_le s)
    ((data.display.bind Display.formats).getD []) _ h1
  exact foldl_preserve operationsStep (fun m => keyCount m s ≤ 1) (operationsStep_count_le s)
    (data.operations.getD []) _ h2

/-! ### Which attribute bag each builder section emits -/

/-- Every node of a field section carries a field attribute bag. -/
theorem fieldSection_details_field (opId : String) (opFx opFy : Float) (nF : Nat) :
    ∀ (fields : List DisplayField) (fi nid : Nat) (n : KnowledgeGraphNode),
      n ∈ (fieldSection opId opFx opFy nF fields fi nid).1 →
      ∃ f, n.details = NodeDetails.field (mkFieldDetails f) := by
  intro fields
  induction fields with
  | nil => intro fi nid n hn; simp [fieldSection] at hn
  | cons f rest ih =>
    intro fi nid n hn
    simp only [fieldSection, List.mem_cons] at hn
    rcases hn with h | h
    · exact ⟨f, by rw [h]; rfl⟩
    · exact ih _ _ n h

/-- Every node of a context-deployment section carries a deployment attribute bag. -/
theorem ctxDepSection_details_deployment (cid : String) (total : Nat) :
    ∀ (deps : List Deployment) (i nid : Nat) (n : KnowledgeGraphNode),
      n ∈ (ctxDepSection cid total deps i nid).1 →
      ∃ dd, n.details = NodeDetails.deployment dd := by
  intro deps
  induction deps with
  | nil => intro i nid n hn; simp [ctxDepSection] at hn
  | cons dep rest ih =>
    intro i nid n hn
    simp only [ctxDepSection, List.mem_cons] at hn
    rcases hn with h | h
    · exact ⟨_, by rw [h]; rfl⟩
    · exact ih _ _ n h

/-- Every node of an extra-deployment section carries a deployment attribute bag. -/
theorem extraDepSection_details_deployment (cid : String) (ctxDeps : Option (List Deployment))
    (total : Nat) :
    ∀ (deps : List Deployment) (i nid : Nat) (n : KnowledgeGraphNode),
      n ∈ (extraDepSection cid ctxDeps total deps i nid).1 →
      ∃ dd, n.details = NodeDetails.deployment dd := by
  intro deps
  induction deps with
  | nil => intro i nid n hn; simp [extraDepSection] at hn
  | cons dep rest ih =>
    intro i nid n hn
    simp only [extraDepSection] at hn
    split at hn
    · exact ih _ _ n hn
    · simp only [List.mem_cons] at hn
      rcases hn with h | h
      · exact ⟨_, by rw [h]; rfl⟩
      · exact ih _ _ n h

/-- Every operation attribute bag in an operation section comes from a table row. -/
theorem opSection_details_operation (cid : String) (total : Nat) :
    ∀ (ops : OpsMap) (index nid : Nat) (n : KnowledgeGraphNode),
      n ∈ (opSection cid total ops index nid).1 →
      ∀ d, n.details = NodeDetails.operation d →
      ∃ sig row, (sig, row) ∈ ops ∧ d = mkOperationDetails sig row := by
  intro ops
  induction ops with
  | nil => intro index nid n hn; simp [opSection] at hn
  | cons p rest ih =>
    obtain ⟨sig, row⟩ := p
    intro index nid n hn d hd
    simp only [opSection, List.mem_cons, List.mem_append] at hn
    rcases hn with h | h | h
    · rw [h] at hd
      have h' : NodeDetails.operation (mkOperationDetails sig row)
          = NodeDetails.operation d := hd
      injection h' with h2
      exact ⟨sig, row, List.mem_cons_self _ _, h2.symm⟩
    · obtain ⟨f, hf⟩ := fieldSection_details_field _ _ _ _ _ _ _ n h
      rw [hf] at hd
      exact absurd hd (by simp)
    · obtain ⟨sig', row', hmem, hde⟩ := ih _ _ n h d hd
      exact ⟨sig', row', List.mem_cons_of_mem _ hmem, hde⟩

/-- Every operation attribute bag emitted by the builder comes from a row of the
operations table. -/
theorem build_operation_details (data : ERC7730Doc) (n : KnowledgeGraphNode)
    (hn : n ∈ (createKnowledgeGraphFromERC7730 data).nodes)
    (d : OperationDetails) (hd : n.details = NodeDetails.operation d) :
    ∃ sig row, (sig, row) ∈ buildOpsMap data ∧ d = mkOperationDetails sig row := by
  simp only [createKnowledgeGraphFromERC7730, List.mem_cons, List.mem_append,
    or_assoc] at hn
  rcases hn with h | h | h | h
  · rw [h] at hd
    exact absurd hd (by simp)
  · exact opSection_details_operation _ _ _ _ _ n h d hd
  · obtain ⟨dd, hdd⟩ := ctxDepSection_details_deployment _ _ _ _ _ n h
    rw [hdd] at hd
    exact absurd hd (by simp)
  · obtain ⟨dd, hdd⟩ := extraDepSection_details_deployment _ _ _ _ _ _ n h
    rw [hdd] at hd
    exact absurd hd (by simp)

/-- C10: every operation node the builder produces for an ABI entry with
stateMutability `"pure"` and a constant flag that is not `true` carries
`isReadOnly = true` and `hasStateChange = true` at the same time. -/
theorem pure_function_dual_flags (data : ERC7730Doc) (n : KnowledgeGraphNode)
    (hn : n ∈ (createKnowledgeGraphFromERC7730 data).nodes)
    (d : OperationDetails) (hd : n.details = NodeDetails.operation d)
    (a : AbiFunction) (ha : d.abi = some a)
    (hsm : a.stateMutability = some "pure") (hct : a.constant ≠ some true) :
    d.isReadOnly = true ∧ d.hasStateChange = true := by
  obtain ⟨sig, row, _, rfl⟩ := build_operation_details data n hn d hd
  have hra : row.abi = some a := ha
  have hsm' : row.abi.bind AbiFunction.stateMutability = some "pure" := by
    rw [hra]; exact hsm
  have hct' : (row.abi.bind AbiFunction.constant == some true) = false := by
    rw [hra]
    exact beq_eq_false_iff_ne.mpr hct
  constructor
  · show ((row.abi.bind AbiFunction.stateMutability == some "view")
        || (row.abi.bind AbiFunction.stateMutability == some "pure")
        || (row.abi.bind AbiFunction.constant == some true)) = true
    rw [hsm', hct']
    decide
  · show ((row.abi.bind AbiFunction.stateMutability == some "nonpayable")
        || (row.abi.bind AbiFunction.stateMutability == some "payable")
        || !((row.abi.bind AbiFunction.stateMutability == some "view")
            || (row.abi.bind AbiFunction.constant == some true))) = true
    rw [hsm', hct']
    decide

/-- C10 witness: a document with a single pure function. -/
theorem pure_function_dual_flags_witness :
    ∃ n ∈ (createKnowledgeGraphFromERC7730 pureDoc).nodes,
      ∃ d, n.details = NodeDetails.operation d
        ∧ d.isReadOnly = true ∧ d.hasStateChange = true := by
  have hlt : 1 < (createKnowledgeGraphFromERC7730 pureDoc).nodes.length := by decide
  refine ⟨(createKnowledgeGraphFromERC7730 pureDoc).nodes.get ⟨1, hlt⟩,
    List.get_mem _ 1 hlt, mkOperationDetails "calc()" pureRow, ?_, ?_⟩
  · rfl
  · exact pure_function_dual_flags pureDoc _ (List.get_mem _ 1 hlt) _ rfl pureAbi rfl rfl
      (by decide)

/-! ### Counting the operation nodes the builder emits -/

/-- A stored lookup result is a member of the table. -/
theorem mem_of_lookup (m : OpsMap) (s : String) (row : OperationRow)
    (h : mapLookup m s = some row) : (s, row) ∈ m := by
  simp only [mapLookup, Option.map_eq_some'] at h
  obtain ⟨p, hp, hp2⟩ := h
  have hmem := List.mem_of_find?_eq_some hp
  have hpred := List.find?_some hp
  obtain ⟨p1, p2⟩ := p
  have h1 : p1 = s := beq_iff_eq.mp hpred
  have h2 : p2 = row := hp2
  subst h1
  subst h2
  exact hmem

/-- The signature predicate on an operation node reduces to its key. -/
theorem isOpNodeWithSig_mkOperationNode (s sig : String) (row : OperationRow)
    (nF nid : Nat) (ofx ofy : Float) :
    isOpNodeWithSig s (mkOperationNode sig row nF nid ofx ofy) = (sig == s) := rfl

/-- Field nodes never satisfy the signature predicate. -/
theorem isOpNodeWithSig_mkFieldNode (s : String) (f : DisplayField) (opFx opFy : Float)
    (fieldIndex nFields nid : Nat) :
    isOpNodeWithSig s (mkFieldNode f opFx opFy fieldIndex nFields nid) = false := rfl

/-- Deployment nodes never satisfy the signature predicate. -/
theorem isOpNodeWithSig_mkDeploymentNode (s : String) (dep : Deployment)
    (index total nid : Nat) :
    isOpNodeWithSig s (mkDeploymentNode dep index total nid) = false := rfl

/-- A node whose bag is a contract bag never satisfies the signature predicate. -/
theorem isOpNodeWithSig_eq_false_of_contract (s : String) (n : KnowledgeGraphNode)
    (d : ContractDetails) (h : n.details = NodeDetails.contract d) :
    isOpNodeWithSig s n = false := by
  unfold isOpNodeWithSig
  rw [h]

/-- A true signature predicate exposes the operation bag and its signature. -/
theorem isOpNodeWithSig_true_elim (s : String) (n : KnowledgeGraphNode)
    (h : isOpNodeWithSig s n = true) :
    ∃ d, n.details = NodeDetails.operation d ∧ d.signature = s := by
  unfold isOpNodeWithSig at h
  cases hd : n.details with
  | contract d => rw [hd] at h; exact absurd h (by simp)
  | field d => rw [hd] at h; exact absurd h (by simp)
  | deployment d => rw [hd] at h; exact absurd h (by simp)
  | operation d =>
    rw [hd] at h
    exact ⟨d, rfl, beq_iff_eq.mp (by simpa using h)⟩

/-- Field sections contribute no operation nodes with any signature. -/
theorem fieldSection_filter_opSig (s opId : String) (opFx opFy : Float) (nF : Nat) :
    ∀ (fields : List DisplayField) (fi nid : Nat),
      ((fieldSection opId opFx opFy nF fields fi nid).1).filter (isOpNodeWithSig s)
        = [] := by
  intro fields
  induction fields with
  | nil => intro fi nid; rfl
  | cons f rest ih =>
    intro fi nid
    simp only [fieldSection]
    rw [List.filter_cons, isOpNodeWithSig_mkFieldNode, boolIteFalse]
    exact ih _ _

/-- Context-deployment sections contribute no operation nodes. -/
theorem ctxDepSection_filter_opSig (s cid : String) (total : Nat) :
    ∀ (deps : List Deployment) (i nid : Nat),
      ((ctxDepSection cid total deps i nid).1).filter (isOpNodeWithSig s) = [] := by
  intro deps
  induction deps with
  | nil => intro i nid; rfl
  | cons dep rest ih =>
    intro i nid
    simp only [ctxDepSection]
    rw [List.filter_cons, isOpNodeWithSig_mkDeploymentNode, boolIteFalse]
    exact ih _ _

/-- Extra-deployment sections contribute no operation nodes. -/
theorem extraDepSection_filter_opSig (s cid : String) (ctxDeps : Option (List Deployment))
    (total : Nat) :
    ∀ (deps : List Deployment) (i nid : Nat),
      ((extraDepSection cid ctxDeps total deps i nid).1).filter (isOpNodeWithSig s)
        = [] := by
  intro deps
  induction deps with
  | nil => intro i nid; rfl
  | cons dep rest ih =>
    intro i nid
    simp only [extraDepSection]
    split
    · exact ih _ _
    · rw [List.filter_cons, isOpNodeWithSig_mkDeploymentNode, boolIteFalse]
      exact ih _ _

/-- The operation section emits as many nodes with signature `s` as the table
has rows keyed `s`. -/
theorem opSection_count (s cid : String) (total : Nat) :
    ∀ (ops : OpsMap) (index nid : Nat),
      (((opSection cid total ops index nid).1).filter (isOpNodeWithSig s)).length
        = keyCount ops s := by
  intro ops
  induction ops with
  | nil => intro index nid; rfl
  | cons p rest ih =>
    obtain ⟨sig, row⟩ := p
    intro index nid
    simp only [opSection]
    rw [List.filter_cons, isOpNodeWithSig_mkOperationNode, List.filter_append,
      fieldSection_filter_opSig, List.nil_append, keyCount_cons]
    cases hsig : sig == s with
    | true =>
      rw [boolIteTrue, List.length_cons, ih, boolIteTrue]
    | false =>
      rw [boolIteFalse, ih, boolIteFalse]
      omega

/-- The whole build emits as many nodes with signature `s` as the finished
table has rows keyed `s`. -/
theorem build_opNode_count (data : ERC7730Doc) (s : String) :
    (((createKnowledgeGraphFromERC7730 data).nodes).filter (isOpNodeWithSig s)).length
      = keyCount (buildOpsMap data) s := by
  simp only [createKnowledgeGraphFromERC7730]
  rw [List.filter_cons, isOpNodeWithSig_eq_false_of_contract s _ _ rfl, boolIteFalse,
    List.filter_append, List.filter_append, ctxDepSection_filter_opSig,
    extraDepSection_filter_opSig, List.append_nil, List.append_nil, opSection_count]

/-- C6: for any operation present both as an ABI `function` entry and in the
display-format map under its derived signature key, the builder emits exactly
one operation node with that signature, and that node carries both sources
(its `abi` and its `format` attributes are both populated). -/
theorem operation_merge_single_node (data : ERC7730Doc) (abiList : List AbiFunction)
    (a : AbiFunction) (fmts : List (String × DisplayFormat)) (fmt : DisplayFormat)
    (habi : (data.context.bind Context.contract).bind ContractContext.abi = some abiList)
    (hmem : a ∈ abiList) (hfn : a.type = "function")
    (hfmts : data.display.bind Display.formats = some fmts)
    (hfmem : (signatureOf a, fmt) ∈ fmts) :
    ((createKnowledgeGraphFromERC7730 data).nodes.filter
        (isOpNodeWithSig (signatureOf a))).length = 1
    ∧ ∀ n ∈ (createKnowledgeGraphFromERC7730 data).nodes.filter
        (isOpNodeWithSig (signatureOf a)),
      ∃ d, n.details = NodeDetails.operation d
        ∧ d.abi.isSome = true ∧ d.format.isSome = true := by
  obtain ⟨row0, hl0, hab0, hdi0⟩ :=
    buildOpsMap_merged data abiList a fmts fmt habi hmem hfn hfmts hfmem
  have hle := buildOpsMap_keyCount_le data (signatureOf a)
  have hge : 1 ≤ keyCount (buildOpsMap data) (signatureOf a) :=
    keyCount_pos_of_mem _ _ row0 (mem_of_lookup _ _ row0 hl0)
  constructor
  · rw [build_opNode_count]
    omega
  · intro n hn
    rw [List.mem_filter] at hn
    obtain ⟨d, hdet, hdsig⟩ := isOpNodeWithSig_true_elim (signatureOf a) n hn.2
    obtain ⟨sig, row, hrowmem, hdmk⟩ := build_operation_details data n hn.1 d hdet
    have hsig : sig = signatureOf a := by
      have hds : d.signature = sig := by rw [hdmk]; rfl
      rw [hds] at hdsig
      exact hdsig
    rw [hsig] at hrowmem
    have hlrow : mapLookup (buildOpsMap data) (signatureOf a) = some row :=
      lookup_of_mem_of_keyCount_le (signatureOf a) row (buildOpsMap data) hle hrowmem
    have hrow0 : row = row0 := by
      rw [hlrow] at hl0
      exact Option.some.inj hl0
    refine ⟨d, hdet, ?_, ?_⟩
    · rw [hdmk]
      show row.abi.isSome = true
      rw [hrow0]
      exact hab0
    · rw [hdmk]
      show row.display.isSome = true
      rw [hrow0]
      exact hdi0

/-- C6 witness: the `balanceOf(address)` document, where the operation appears
in the ABI and in the display formats under the matching signature key. -/
theorem operation_merge_single_node_witness :
    ((createKnowledgeGraphFromERC7730 balanceOfDoc).nodes.filter
        (isOpNodeWithSig (signatureOf balanceOfAbi))).length = 1
    ∧ ∀ n ∈ (createKnowledgeGraphFromERC7730 balanceOfDoc).nodes.filter
        (isOpNodeWithSig (signatureOf balanceOfAbi)),
      ∃ d, n.details = NodeDetails.operation d
        ∧ d.abi.isSome = true ∧ d.format.isSome = true :=
  operation_merge_single_node balanceOfDoc [balanceOfAbi] balanceOfAbi
    [("balanceOf(address)", { fields := some [accountField] })]
    { fields := some [accountField] } rfl (List.mem_singleton.mpr rfl) rfl rfl
    (List.mem_singleton.mpr rfl)

end ClearSigningBuilder
